import Mathlib

/-!
# The XMLHttpRequest bridge of gopeed (`pkg/download/engine/inject/xhr/module.go`)

A shallow embedding of the request object, its event dispatch and its multipart
encoder, followed by theorems about them.

Conventions of the embedding.

* A Go `string` (and a `[]byte`) is a sequence of bytes.  It is represented by a Lean
  `String` in which every character stands for one byte, so Go's `len(s)` is
  `s.length` and concatenation is `++`.
* A Go `map[string]T` is an association list with pairwise distinct keys.  The order
  of the list is not observable through lookups; wherever the code ranges over a
  map, the order of the visit is supplied by the `Host`.
* A guest callback (`func(event *ProgressEvent)`) is identified by a number.  Calling
  it is recorded, together with the record it received, in the `calls` of the
  firing.  Callbacks are guest code: what they do to the request object while they
  run (re-entering `open`, `abort`, ...) is outside this embedding.
* Everything the code obtains from the Go runtime and from `net/http` (the outcome
  of `client.Do`, whether `http.NewRequest` fails, the random multipart boundaries,
  the order of a `range` over a map) is a field of `Host`.
* An `io.Reader` is represented by the bytes it yields; reading does not fail, the
  pipe and the buffers written to do not fail, and no two values share a reader.
* The fields `Loaded`, `Total`, `Size` and the content length are `int64` in the
  source; they are integers here, and `int64` is applied where the source adds.
* A write to a nil map makes the Go runtime panic.  Operations that can do so
  return a `Step` whose `panicked` flag is set; the events fired before the panic
  stay in the step.
-/

namespace Xhr

/-! ## Go maps -/

/-- The value stored under `k` (Go: `v, ok := m[k]`). -/
def mapGet {α : Type} (m : List (String × α)) (k : String) : Option α :=
  (m.find? (fun e => e.1 == k)).map (fun e => e.2)

/-- The map after `delete(m, k)`. -/
def mapDelete {α : Type} (m : List (String × α)) (k : String) : List (String × α) :=
  m.filter (fun e => !(e.1 == k))

/-- The map after `m[k] = v`: the former entry of `k`, if any, is replaced. -/
def mapSet {α : Type} (m : List (String × α)) (k : String) (v : α) : List (String × α) :=
  mapDelete m k ++ [(k, v)]

/-! ## Events -/

def eventLoad : String := "load"

def eventReadystatechange : String := "readystatechange"

def eventProgress : String := "progress"

def eventAbort : String := "abort"

def eventError : String := "error"

def eventTimeout : String := "timeout"

/-- The event record handed to callbacks. -/
structure ProgressEvent where
  type : String
  LengthComputable : Bool
  Loaded : Int
  Total : Int
  deriving DecidableEq, Repr

/-- Identity of a guest callback, a callable function of the script. -/
abbrev Callback := Nat

/-- One invocation of a callback: the callback and the record it was called with. -/
abbrev Call := Callback × ProgressEvent

/-- What one `callOn...` does: the record it constructs and the callbacks it invokes,
in order. -/
structure Dispatch where
  event : ProgressEvent
  calls : List Call
  deriving DecidableEq, Repr

/-- The event surface shared by the request object and its upload object. -/
structure EventProp where
  eventListeners : List (String × Callback)
  Onload : Option Callback
  Onprogress : Option Callback
  Onabort : Option Callback
  Onerror : Option Callback
  Ontimeout : Option Callback
  deriving DecidableEq, Repr

/-- The `EventProp` built by the constructor in `Enable`: an empty listener map and no
handler assigned. -/
def EventProp.new : EventProp :=
  { eventListeners := [], Onload := none, Onprogress := none, Onabort := none,
    Onerror := none, Ontimeout := none }

def EventProp.AddEventListener (ep : EventProp) (event : String) (cb : Callback) : EventProp :=
  { ep with eventListeners := mapSet ep.eventListeners event cb }

def EventProp.RemoveEventListener (ep : EventProp) (event : String) : EventProp :=
  { ep with eventListeners := mapDelete ep.eventListeners event }

/-- Calls of `if h != nil { h(event) }`. -/
def callHandler (h : Option Callback) (event : ProgressEvent) : List Call :=
  match h with
  | some cb => [(cb, event)]
  | none => []

def EventProp.callEventListener (ep : EventProp) (event : ProgressEvent) : List Call :=
  match mapGet ep.eventListeners event.type with
  | some cb => [(cb, event)]
  | none => []

def EventProp.callOnload (ep : EventProp) : Dispatch :=
  let event : ProgressEvent :=
    { type := eventLoad, LengthComputable := false, Loaded := 0, Total := 0 }
  { event := event, calls := callHandler ep.Onload event ++ ep.callEventListener event }

def EventProp.callOnprogress (ep : EventProp) (loaded total : Int) : Dispatch :=
  let event : ProgressEvent :=
    { type := eventProgress, LengthComputable := true, Loaded := loaded, Total := total }
  { event := event, calls := callHandler ep.Onprogress event ++ ep.callEventListener event }

def EventProp.callOnabort (ep : EventProp) : Dispatch :=
  let event : ProgressEvent :=
    { type := eventAbort, LengthComputable := false, Loaded := 0, Total := 0 }
  { event := event, calls := callHandler ep.Onabort event ++ ep.callEventListener event }

def EventProp.callOnerror (ep : EventProp) : Dispatch :=
  let event : ProgressEvent :=
    { type := eventError, LengthComputable := false, Loaded := 0, Total := 0 }
  { event := event, calls := callHandler ep.Onerror event ++ ep.callEventListener event }

def EventProp.callOntimeout (ep : EventProp) : Dispatch :=
  let event : ProgressEvent :=
    { type := eventTimeout, LengthComputable := false, Loaded := 0, Total := 0 }
  { event := event, calls := callHandler ep.Ontimeout event ++ ep.callEventListener event }

/-! ## The request object -/

/-- The two event-capable objects of a request. -/
inductive Target where
  | upload
  | main
  deriving DecidableEq, Repr

/-- One firing of an event as a guest can observe it: the object it fired on, the
`ReadyState` of the request at that moment, the record and the callbacks invoked. -/
structure Fired where
  target : Target
  readyState : Int
  event : ProgressEvent
  calls : List Call
  deriving DecidableEq, Repr

structure XMLHttpRequest where
  method : String
  url : String
  /-- The value `none` is the nil map of a request that was never opened. -/
  requestHeaders : Option (List (String × String))
  responseHeaders : Option (List (String × String))
  aborted : Bool
  proxyUrl : Option String
  Upload : EventProp
  Timeout : Int
  ReadyState : Int
  Status : Int
  StatusText : String
  Response : String
  ResponseText : String
  /-- The embedded `*EventProp` of the request object itself. -/
  EventProp : EventProp
  Onreadystatechange : Option Callback
  deriving DecidableEq, Repr

/-- The instance built by the constructor in `Enable`. -/
def XMLHttpRequest.new (proxyUrl : Option String) : XMLHttpRequest :=
  { method := "", url := "", requestHeaders := none, responseHeaders := none,
    aborted := false, proxyUrl := proxyUrl, Upload := EventProp.new, Timeout := 0,
    ReadyState := 0, Status := 0, StatusText := "", Response := "", ResponseText := "",
    EventProp := EventProp.new, Onreadystatechange := none }

/-- Result of an operation: the request afterwards, the events fired in order, and
whether the Go runtime panicked (then the operation stopped there). -/
structure Step where
  xhr : XMLHttpRequest
  fired : List Fired
  panicked : Bool
  deriving DecidableEq, Repr

/-- A firing on the upload object. -/
def XMLHttpRequest.onUpload (xhr : XMLHttpRequest) (d : Dispatch) : Fired :=
  { target := Target.upload, readyState := xhr.ReadyState, event := d.event, calls := d.calls }

/-- A firing on the request object. -/
def XMLHttpRequest.onMain (xhr : XMLHttpRequest) (d : Dispatch) : Fired :=
  { target := Target.main, readyState := xhr.ReadyState, event := d.event, calls := d.calls }

def XMLHttpRequest.callOnreadystatechange (xhr : XMLHttpRequest) : Dispatch :=
  let event : ProgressEvent :=
    { type := eventReadystatechange, LengthComputable := false, Loaded := 0, Total := 0 }
  { event := event,
    calls := callHandler xhr.Onreadystatechange event ++ xhr.EventProp.callEventListener event }

def XMLHttpRequest.doReadystatechange (xhr : XMLHttpRequest) (state : Int) :
    XMLHttpRequest × List Fired :=
  if xhr.aborted then
    (xhr, [])
  else
    let xhr1 := { xhr with ReadyState := state }
    (xhr1, [xhr1.onMain xhr1.callOnreadystatechange])

def XMLHttpRequest.Open (xhr : XMLHttpRequest) (method url : String) :
    XMLHttpRequest × List Fired :=
  let xhr1 := { xhr with method := method, url := url,
                         requestHeaders := some [], responseHeaders := some [] }
  xhr1.doReadystatechange 1

def XMLHttpRequest.SetRequestHeader (xhr : XMLHttpRequest) (key value : String) : Step :=
  match xhr.requestHeaders with
  | none => { xhr := xhr, fired := [], panicked := true }
  | some m =>
    { xhr := { xhr with requestHeaders := some (mapSet m key value) }, fired := [],
      panicked := false }

def XMLHttpRequest.Abort (xhr : XMLHttpRequest) : XMLHttpRequest × List Fired :=
  let r := xhr.doReadystatechange 0
  let xhr1 := { r.1 with aborted := true }
  (xhr1, r.2 ++ [xhr1.onUpload xhr1.Upload.callOnabort, xhr1.onMain xhr1.EventProp.callOnabort])

def XMLHttpRequest.GetResponseHeader (xhr : XMLHttpRequest) (key : String) : String :=
  match xhr.responseHeaders with
  | none => ""
  | some m => (mapGet m key).getD ""

/-! ## Request bodies -/

/-- An `io.Reader`: the bytes it yields before end of stream, and whether its dynamic
type is one of those whose length `http.NewRequest` measures (`*bytes.Buffer`,
`*bytes.Reader`, `*strings.Reader`). -/
structure Reader where
  data : String
  sized : Bool
  deriving DecidableEq, Repr

/-- The `file.File` of the sibling package: a reader, a name and a declared size. -/
structure File where
  Reader : Reader
  Name : String
  Size : Int
  deriving DecidableEq, Repr

/-- The value of a form-data entry: a string or a `*file.File`. -/
inductive FieldValue where
  | text (value : String)
  | file (f : File)
  deriving DecidableEq, Repr

/-- The result of `parseData`: nil, a string, a `*file.File` or a `*formdata.FormData`
(given by its entries, in order). -/
inductive Body where
  | absent
  | text (s : String)
  | file (f : File)
  | form (entries : List (String × FieldValue))
  deriving DecidableEq, Repr

/-- Conversion to Go's `int64`: two's complement wrap-around. -/
def int64 (x : Int) : Int :=
  (x + 2 ^ 63) % 2 ^ 64 - 2 ^ 63

/-! ## The multipart writer of Go's `mime/multipart`

The underlying `io.Writer` never fails here; `out` is everything written to it. -/

structure Writer where
  boundary : String
  out : String
  /-- Whether a part has been created and not yet closed (`w.lastpart != nil`). -/
  lastpart : Bool
  deriving DecidableEq, Repr

def NewWriter (boundary : String) : Writer :=
  { boundary := boundary, out := "", lastpart := false }

/-- The delimiter line and the header block opening a part; `header` holds the header
lines, each ended by CRLF, sorted by key. -/
def Writer.CreatePart (w : Writer) (header : String) : Writer :=
  let delimiter :=
    if w.lastpart then "\r\n--" ++ w.boundary ++ "\r\n" else "--" ++ w.boundary ++ "\r\n"
  { w with out := w.out ++ delimiter ++ header ++ "\r\n", lastpart := true }

/-- Header lines of a text part; `esc` is the library's `escapeQuotes`. -/
def formFieldHeader (esc : String → String) (fieldname : String) : String :=
  "Content-Disposition: form-data; name=\"" ++ esc fieldname ++ "\"\r\n"

/-- Header lines of a file part. -/
def formFileHeader (esc : String → String) (fieldname filename : String) : String :=
  "Content-Disposition: form-data; name=\"" ++ esc fieldname ++ "\"; filename=\""
    ++ esc filename ++ "\"\r\n" ++ "Content-Type: application/octet-stream\r\n"

def Writer.CreateFormField (w : Writer) (esc : String → String) (fieldname : String) : Writer :=
  w.CreatePart (formFieldHeader esc fieldname)

def Writer.CreateFormFile (w : Writer) (esc : String → String) (fieldname filename : String) :
    Writer :=
  w.CreatePart (formFileHeader esc fieldname filename)

/-- A `Write` on the current part. -/
def Writer.Write (w : Writer) (p : String) : Writer :=
  { w with out := w.out ++ p }

def Writer.WriteField (w : Writer) (esc : String → String) (fieldname value : String) : Writer :=
  (w.CreateFormField esc fieldname).Write value

def Writer.Close (w : Writer) : Writer :=
  { w with out := w.out ++ "\r\n--" ++ w.boundary ++ "--\r\n", lastpart := false }

/-- The boundary is quoted when it holds a space or one of the special characters of
RFC 2045; a boundary drawn by the library is hexadecimal and is never quoted. -/
def Writer.FormDataContentType (w : Writer) : String :=
  if w.boundary.any (fun c => "()<>@,;:\\\"/[]?= ".contains c) then
    "multipart/form-data; boundary=\"" ++ w.boundary ++ "\""
  else
    "multipart/form-data; boundary=" ++ w.boundary

/-! ## `multipartWrapper` -/

/-- The wrapper: `statWriter` writes into `statBuffer` (whose content is
`statWriter.out`), `writer` writes into the pipe. -/
structure multipartWrapper where
  statWriter : Writer
  writer : Writer
  fields : List (String × FieldValue)
  deriving DecidableEq, Repr

/-- The two writers get the boundaries the library draws at random for them. -/
def NewMultipart (statBoundary boundary : String) : multipartWrapper :=
  { statWriter := NewWriter statBoundary, writer := NewWriter boundary, fields := [] }

def multipartWrapper.WriteField (w : multipartWrapper) (esc : String → String)
    (fieldname value : String) : multipartWrapper :=
  { w with fields := mapSet w.fields fieldname (FieldValue.text value),
           statWriter := w.statWriter.WriteField esc fieldname value }

def multipartWrapper.WriteFile (w : multipartWrapper) (esc : String → String)
    (fieldname : String) (file : File) : multipartWrapper :=
  { w with fields := mapSet w.fields fieldname (FieldValue.file file),
           statWriter := w.statWriter.CreateFormFile esc fieldname file.Name }

/-- The loop of `Size` over the values of `fields`, visited in the order `visit`. -/
def sizeLoop (visit : List (String × FieldValue)) (size : Int) : Int :=
  match visit with
  | [] => size
  | (_, FieldValue.text _) :: rest => sizeLoop rest size
  | (_, FieldValue.file f) :: rest => sizeLoop rest (int64 (size + f.Size))

/-- The wrapper after `Size()` (the stat writer is closed by it) and the value returned;
`range` gives the order in which the runtime visits the map. -/
def multipartWrapper.Size (w : multipartWrapper)
    (range : List (String × FieldValue) → List (String × FieldValue)) :
    multipartWrapper × Int :=
  let stat := w.statWriter.Close
  ({ w with statWriter := stat }, sizeLoop (range w.fields) (stat.out.length : Int))

/-- The loop of `Send` over `fields`, visited in the order `visit`. -/
def sendLoop (esc : String → String) (visit : List (String × FieldValue)) (writer : Writer) :
    Writer :=
  match visit with
  | [] => writer
  | (k, FieldValue.text v) :: rest => sendLoop esc rest (writer.WriteField esc k v)
  | (k, FieldValue.file f) :: rest =>
    sendLoop esc rest ((writer.CreateFormFile esc k f.Name).Write f.Reader.data)

def multipartWrapper.Send (w : multipartWrapper) (esc : String → String)
    (range : List (String × FieldValue) → List (String × FieldValue)) : multipartWrapper :=
  { w with writer := sendLoop esc (range w.fields) w.writer }

def multipartWrapper.FormDataContentType (w : multipartWrapper) : String :=
  w.writer.FormDataContentType

def multipartWrapper.Close (w : multipartWrapper) : multipartWrapper :=
  { w with writer := w.writer.Close }

/-- The loop of `XMLHttpRequest.Send` over the entries of a `FormData`. -/
def writeEntries (esc : String → String) (entries : List (String × FieldValue))
    (mw : multipartWrapper) : multipartWrapper :=
  match entries with
  | [] => mw
  | (k, FieldValue.text v) :: rest => writeEntries esc rest (mw.WriteField esc k v)
  | (k, FieldValue.file f) :: rest => writeEntries esc rest (mw.WriteFile esc k f)

/-! ## The native call -/

/-- The response of `client.Do` as `Send` reads it. -/
structure Response where
  StatusCode : Int
  Status : String
  /-- Every key of `resp.Header` with the first of its values, in the order in which the
  range over `resp.Header` visits them. -/
  Header : List (String × String)
  /-- The result of `io.ReadAll(resp.Body)`: the bytes read, or `none` for an error. -/
  Body : Option String
  deriving DecidableEq, Repr

/-- The result of `client.Do`.  For a failure, `timeout` tells whether the error is a
`net.Error` whose `Timeout()` is true. -/
inductive DoResult where
  | failed (timeout : Bool)
  | ok (resp : Response)
  deriving DecidableEq, Repr

/-- The request and the client settings handed to `client.Do`. -/
structure Request where
  Method : String
  URL : String
  /-- The bytes the body stream yields; `none` when there is no body. -/
  Body : Option String
  Header : List (String × String)
  ContentLength : Int
  /-- The timeout of the client, a `time.Duration` in nanoseconds. -/
  Timeout : Int
  Proxy : Option String
  deriving DecidableEq, Repr

/-- What `Send` takes from the Go runtime, the standard library and the network. -/
structure Host where
  /-- Whether `http.NewRequest(method, url, body)` returns an error. -/
  newRequestFails : String → String → Bool
  /-- The canonical form of a header key used by `Header.Set`. -/
  canonicalKey : String → String
  /-- The function `escapeQuotes` of `mime/multipart`. -/
  escapeQuotes : String → String
  /-- The random boundary of the stat writer. -/
  statBoundary : String
  /-- The random boundary of the writer of the real pass. -/
  boundary : String
  /-- The order of the range over `fields` in `multipartWrapper.Size`. -/
  rangeFieldsSize : List (String × FieldValue) → List (String × FieldValue)
  /-- The order of the range over `fields` in `multipartWrapper.Send`. -/
  rangeFieldsSend : List (String × FieldValue) → List (String × FieldValue)
  /-- The order of the range over `requestHeaders` in `Send`. -/
  rangeHeaders : List (String × String) → List (String × String)
  /-- The native call. -/
  Do : Request → DoResult

/-- A range over a map visits every entry exactly once; the boundaries drawn by
`mime/multipart` are 30 random bytes in hexadecimal, 60 characters. -/
structure Host.Sound (host : Host) : Prop where
  sizePerm : ∀ m, (host.rangeFieldsSize m).Perm m
  sendPerm : ∀ m, (host.rangeFieldsSend m).Perm m
  headersPerm : ∀ m, (host.rangeHeaders m).Perm m
  statBoundaryLength : host.statBoundary.length = 60
  boundaryLength : host.boundary.length = 60

/-- What the first part of `Send` (lines 151 to 191) computes from the body: the body
stream, the `ContentLength` that `http.NewRequest` derives from the stream by itself,
and the locals `contentType` and `contentLength`. -/
structure Encoded where
  body : Option String
  measured : Int
  contentType : String
  contentLength : Int
  deriving DecidableEq, Repr

def XMLHttpRequest.encode (host : Host) (xhr : XMLHttpRequest) (d : Body) : Encoded :=
  if d = Body.absent ∨ xhr.method = "GET" ∨ xhr.method = "HEAD" then
    { body := none, measured := 0, contentType := "", contentLength := 0 }
  else
    match d with
    | Body.absent => { body := none, measured := 0, contentType := "", contentLength := 0 }
    | Body.text s =>
      { body := some s, measured := (s.length : Int),
        contentType := "text/plain;charset=UTF-8", contentLength := (s.length : Int) }
    | Body.file f =>
      { body := some f.Reader.data,
        measured := if f.Reader.sized then (f.Reader.data.length : Int) else 0,
        contentType := "application/octet-stream", contentLength := f.Size }
    | Body.form entries =>
      let mw := writeEntries host.escapeQuotes entries
        (NewMultipart host.statBoundary host.boundary)
      let sent := (mw.Send host.escapeQuotes host.rangeFieldsSend).Close
      { body := some sent.writer.out, measured := 0,
        contentType := mw.FormDataContentType,
        contentLength := (mw.Size host.rangeFieldsSize).2 }

/-- The request handed to `client.Do` (lines 196 to 212). -/
def XMLHttpRequest.nativeRequest (host : Host) (xhr : XMLHttpRequest) (d : Body) : Request :=
  let e := xhr.encode host d
  let header0 : List (String × String) :=
    if e.contentType ≠ "" then mapSet [] (host.canonicalKey "Content-Type") e.contentType
    else []
  { Method := if xhr.method = "" then "GET" else xhr.method,
    URL := xhr.url,
    Body := e.body,
    Header := (host.rangeHeaders (xhr.requestHeaders.getD [])).foldl
      (fun h kv => mapSet h (host.canonicalKey kv.1) kv.2) header0,
    ContentLength := if e.contentLength > 0 then e.contentLength else e.measured,
    Timeout := int64 (xhr.Timeout * 1000000),
    Proxy := xhr.proxyUrl }

/-- The loop `xhr.responseHeaders[k] = v[0]`; the outer `none` is the panic of a write to
a nil map. -/
def storeHeaders (m : Option (List (String × String))) (header : List (String × String)) :
    Option (Option (List (String × String))) :=
  match m, header with
  | none, [] => some none
  | none, _ :: _ => none
  | some m, header => some (some (header.foldl (fun m kv => mapSet m kv.1 kv.2) m))

/-- The part of `Send` after a successful `client.Do` (lines 227 to 253). -/
def XMLHttpRequest.receive (xhr : XMLHttpRequest) (contentLength : Int) (resp : Xhr.Response) :
    Step :=
  let ev1 := [xhr.onUpload (xhr.Upload.callOnprogress contentLength contentLength)]
  let ev2 := if xhr.aborted then ev1 else ev1 ++ [xhr.onUpload xhr.Upload.callOnload]
  match storeHeaders xhr.responseHeaders resp.Header with
  | none => { xhr := xhr, fired := ev2, panicked := true }
  | some hs =>
    let xhr1 := { xhr with responseHeaders := hs, Status := resp.StatusCode,
                           StatusText := resp.Status }
    let r2 := xhr1.doReadystatechange 2
    match resp.Body with
    | none =>
      { xhr := r2.1, fired := ev2 ++ r2.2 ++ [r2.1.onMain r2.1.EventProp.callOnerror],
        panicked := false }
    | some buf =>
      let r3 := r2.1.doReadystatechange 3
      let xhr3 := { r3.1 with Response := buf, ResponseText := buf }
      let r4 := xhr3.doReadystatechange 4
      let respBodyLen : Int := (buf.length : Int)
      let ev := ev2 ++ r2.2 ++ r3.2 ++ r4.2 ++
        [r4.1.onMain (r4.1.EventProp.callOnprogress respBodyLen respBodyLen)]
      { xhr := r4.1,
        fired := if r4.1.aborted then ev else ev ++ [r4.1.onMain r4.1.EventProp.callOnload],
        panicked := false }

def XMLHttpRequest.Send (host : Host) (xhr : XMLHttpRequest) (data : Body) : Step :=
  if host.newRequestFails xhr.method xhr.url then
    { xhr := xhr, fired := [xhr.onMain xhr.EventProp.callOnerror], panicked := false }
  else
    match host.Do (xhr.nativeRequest host data) with
    | DoResult.failed timeout =>
      if timeout then
        if xhr.Timeout > 0 then
          { xhr := xhr,
            fired := [xhr.onUpload xhr.Upload.callOntimeout,
                      xhr.onMain xhr.EventProp.callOntimeout],
            panicked := false }
        else
          { xhr := xhr, fired := [], panicked := false }
      else
        { xhr := xhr,
          fired := [xhr.onUpload xhr.Upload.callOnerror, xhr.onMain xhr.EventProp.callOnerror],
          panicked := false }
    | DoResult.ok resp => xhr.receive (xhr.encode host data).contentLength resp

/-! ## The operations a guest script performs on a request -/

/-- The assignable handler fields of an `EventProp`. -/
inductive Slot where
  | onload
  | onprogress
  | onabort
  | onerror
  | ontimeout
  deriving DecidableEq, Repr

/-- Assignment of a handler field. -/
def EventProp.assign (ep : EventProp) (slot : Slot) (cb : Option Callback) : EventProp :=
  match slot with
  | Slot.onload => { ep with Onload := cb }
  | Slot.onprogress => { ep with Onprogress := cb }
  | Slot.onabort => { ep with Onabort := cb }
  | Slot.onerror => { ep with Onerror := cb }
  | Slot.ontimeout => { ep with Ontimeout := cb }

/-- The `EventProp` of the upload object or of the request object. -/
def XMLHttpRequest.eventProp (xhr : XMLHttpRequest) (t : Target) : Xhr.EventProp :=
  match t with
  | Target.upload => xhr.Upload
  | Target.main => xhr.EventProp

/-- The request with the `EventProp` of one of its two objects replaced. -/
def XMLHttpRequest.withEventProp (xhr : XMLHttpRequest) (t : Target) (ep : Xhr.EventProp) :
    XMLHttpRequest :=
  match t with
  | Target.upload => { xhr with Upload := ep }
  | Target.main => { xhr with EventProp := ep }

/-- The calls and assignments of the guest-visible surface.  The fields `readyState`,
`status`, `statusText`, `response` and `responseText` are read by scripts, not assigned. -/
inductive Op where
  | open (method url : String)
  | setRequestHeader (key value : String)
  | send (host : Host) (data : Body)
  | abort
  | addEventListener (t : Target) (event : String) (cb : Callback)
  | removeEventListener (t : Target) (event : String)
  | assign (t : Target) (slot : Slot) (cb : Option Callback)
  | assignOnreadystatechange (cb : Option Callback)
  | assignTimeout (ms : Int)

/-- An operation without events and without panic. -/
def quiet (xhr : XMLHttpRequest) : Step :=
  { xhr := xhr, fired := [], panicked := false }

def XMLHttpRequest.apply (xhr : XMLHttpRequest) (op : Op) : Step :=
  match op with
  | Op.open method url =>
    { xhr := (xhr.Open method url).1, fired := (xhr.Open method url).2, panicked := false }
  | Op.setRequestHeader key value => xhr.SetRequestHeader key value
  | Op.send host data => xhr.Send host data
  | Op.abort => { xhr := xhr.Abort.1, fired := xhr.Abort.2, panicked := false }
  | Op.addEventListener t event cb =>
    quiet (xhr.withEventProp t ((xhr.eventProp t).AddEventListener event cb))
  | Op.removeEventListener t event =>
    quiet (xhr.withEventProp t ((xhr.eventProp t).RemoveEventListener event))
  | Op.assign t slot cb => quiet (xhr.withEventProp t ((xhr.eventProp t).assign slot cb))
  | Op.assignOnreadystatechange cb => quiet { xhr with Onreadystatechange := cb }
  | Op.assignTimeout ms => quiet { xhr with Timeout := ms }

/-- A sequence of operations; a panic reaches the script as an exception, after which
the script may go on, so the remaining operations are still performed. -/
def XMLHttpRequest.run (xhr : XMLHttpRequest) (ops : List Op) : Step :=
  match ops with
  | [] => quiet xhr
  | op :: rest =>
    let s := xhr.apply op
    let r := XMLHttpRequest.run s.xhr rest
    { xhr := r.xhr, fired := s.fired ++ r.fired, panicked := s.panicked || r.panicked }

/-- The states a request constructed by `Enable` can get into. -/
def Reachable (xhr : XMLHttpRequest) : Prop :=
  ∃ proxyUrl ops, ((XMLHttpRequest.new proxyUrl).run ops).xhr = xhr

/-- The object and the type of every firing. -/
def labels (fired : List Fired) : List (Target × String) :=
  fired.map (fun f => (f.target, f.event.type))

/-- The `ReadyState` seen at every firing. -/
def readyStates (fired : List Fired) : List Int :=
  fired.map (fun f => f.readyState)

/-- The firings of one type on one object. -/
def firings (fired : List Fired) (t : Target) (type : String) : List Fired :=
  fired.filter (fun f => f.target = t ∧ f.event.type = type)

/-- A host for examples: `http.NewRequest` succeeds, maps are visited in stored order,
both boundaries are sixty characters, and the native call returns `result`. -/
def exampleHost (result : DoResult) : Host :=
  { newRequestFails := fun _ _ => false,
    canonicalKey := fun k => k,
    escapeQuotes := fun s => s,
    statBoundary := "000000000000000000000000000000000000000000000000000000000000",
    boundary := "111111111111111111111111111111111111111111111111111111111111",
    rangeFieldsSize := fun m => m,
    rangeFieldsSend := fun m => m,
    rangeHeaders := fun m => m,
    Do := fun _ => result }

/-- A response with status 200, no header and the body `ok`. -/
def exampleResponse : Response :=
  { StatusCode := 200, Status := "200 OK", Header := [], Body := some "ok" }

/-! ## Notions used in the statements -/

/-- The calls a firing of the record `event` is to make on an object whose handler field
for that type is `handler` and whose listener map is `listeners`: the handler if one is
assigned, then the listener registered for the type of the record if there is one, each
with the record `event`. -/
def expectedCalls (handler : Option Callback) (listeners : List (String × Callback))
    (event : ProgressEvent) : List Call :=
  (handler.toList ++ (mapGet listeners event.type).toList).map (fun cb => (cb, event))

/-- The five assignable handler fields of an `EventProp`. -/
def EventProp.handlers (ep : EventProp) :
    Option Callback × Option Callback × Option Callback × Option Callback × Option Callback :=
  (ep.Onload, ep.Onprogress, ep.Onabort, ep.Onerror, ep.Ontimeout)

/-- No firing in the list is a readystatechange. -/
def noReadystatechange (fired : List Fired) : Prop :=
  ∀ f ∈ fired, f.event.type ≠ eventReadystatechange

/-- What an operation does to a request that is already aborted. -/
structure KeepsAborted (xhr : XMLHttpRequest) (s : Step) : Prop where
  aborted : s.xhr.aborted = true
  readyState : s.xhr.ReadyState = xhr.ReadyState
  silent : noReadystatechange s.fired

/-- The invariant of the request object: an aborted request is in ready state 0. -/
def AbortedUnsent (xhr : XMLHttpRequest) : Prop :=
  xhr.aborted = true → xhr.ReadyState = 0

/-! ## Example inputs -/

/-- A request that was opened and then aborted. -/
def abortedRequest : XMLHttpRequest :=
  ((XMLHttpRequest.new none).run [Op.open "GET" "http://host/get", Op.abort]).xhr

/-- A request opened with a timeout of 300 ms. -/
def timedRequest : XMLHttpRequest :=
  ((XMLHttpRequest.new none).run
    [Op.open "GET" "http://host/timeout?duration=500", Op.assignTimeout 300]).xhr

/-- A request opened without a timeout. -/
def openedRequest : XMLHttpRequest :=
  ((XMLHttpRequest.new none).run [Op.open "GET" "http://host/get"]).xhr

/-- A sequence of `SetRequestHeader` calls. -/
def XMLHttpRequest.setRequestHeaders (xhr : XMLHttpRequest) (headers : List (String × String)) :
    XMLHttpRequest :=
  match headers with
  | [] => xhr
  | (key, value) :: rest =>
    XMLHttpRequest.setRequestHeaders (xhr.SetRequestHeader key value).xhr rest

/-- The object, the type and the ready state of every firing. -/
def views (fired : List Fired) : List (Target × String × Int) :=
  fired.map (fun f => (f.target, f.event.type, f.readyState))

/-- The wrapper after the `WriteField` calls for a form in which the name `a` was appended
twice, with the values `x` and `y`. -/
def duplicateNameWrapper : multipartWrapper :=
  writeEntries (fun s => s) [("a", FieldValue.text "x"), ("a", FieldValue.text "y")]
    (NewMultipart "000000000000000000000000000000000000000000000000000000000000"
      "111111111111111111111111111111111111111111111111111111111111")

/-! ## Lengths of multipart parts -/

/-- Number of bytes of a part behind its delimiter line in the real pass: header lines,
the empty line and the content. -/
def partLength (esc : String → String) (e : String × FieldValue) : Nat :=
  match e with
  | (k, FieldValue.text v) => (formFieldHeader esc k).length + 2 + v.length
  | (k, FieldValue.file f) => (formFileHeader esc k f.Name).length + 2 + f.Reader.data.length

/-- Number of bytes of a part behind its delimiter line in the dry run: a file part has
no content there. -/
def stubLength (esc : String → String) (e : String × FieldValue) : Nat :=
  match e with
  | (k, FieldValue.text v) => (formFieldHeader esc k).length + 2 + v.length
  | (k, FieldValue.file f) => (formFileHeader esc k f.Name).length + 2

/-- The size an entry declares for its content: `Size` of a file, nothing for a text. -/
def declaredSize (e : String × FieldValue) : Int :=
  match e with
  | (_, FieldValue.text _) => 0
  | (_, FieldValue.file f) => f.Size

/-- The number of content bytes the real pass copies from an entry's reader. -/
def readerLength (e : String × FieldValue) : Nat :=
  match e with
  | (_, FieldValue.text _) => 0
  | (_, FieldValue.file f) => f.Reader.data.length

/-! ## Header names

The canonical form of a header name in Go's `net/textproto`. -/

/-- The bytes allowed in a header name: letters, digits and the punctuation of a token. -/
def validHeaderFieldByte (c : Char) : Bool :=
  c.isAlphanum || "!#$%&'*+-.^_`|~".toList.contains c

/-- The loop of `canonicalMIMEHeaderKey`: upper case for the first letter and for a
letter after a dash, lower case for the other letters. -/
def canonicalLoop (upper : Bool) (a : List Char) : List Char :=
  match a with
  | [] => []
  | c :: rest =>
    let c1 :=
      if upper && c.isLower then c.toUpper
      else if !upper && c.isUpper then c.toLower
      else c
    c1 :: canonicalLoop (c1 == '-') rest

/-- A name with a byte that is not allowed in a header name is returned unchanged. -/
def CanonicalMIMEHeaderKey (s : String) : String :=
  if s.toList.all validHeaderFieldByte then String.mk (canonicalLoop true s.toList) else s

/-- The host of the examples with the canonical header names of `net/textproto` and a
given order for the range over the request headers. -/
def canonicalHost (rangeHeaders : List (String × String) → List (String × String)) : Host :=
  { exampleHost (DoResult.ok exampleResponse) with
    canonicalKey := CanonicalMIMEHeaderKey, rangeHeaders := rangeHeaders }

/-- A request opened for `POST` on which the script set the header `Content-Type` to `a`
and then the header `content-type` to `b`. -/
def twoCaseRequest : XMLHttpRequest :=
  ((XMLHttpRequest.new none).run
    [Op.open "POST" "http://host/text", Op.setRequestHeader "Content-Type" "a",
     Op.setRequestHeader "content-type" "b"]).xhr

/-- The object, the record and the ready state of every firing. -/
def records (fired : List Fired) : List (Target × ProgressEvent × Int) :=
  fired.map (fun f => (f.target, f.event, f.readyState))

/-- A response with status 200 whose body cannot be read. -/
def unreadableResponse : Response :=
  { StatusCode := 200, Status := "200 OK", Header := [], Body := none }

/-- A host for which `http.NewRequest` fails. -/
def failingConstructionHost : Host :=
  { exampleHost (DoResult.ok exampleResponse) with newRequestFails := fun _ _ => true }

/-! ## The multipart encoding of a sequence of parts -/

/-- What a part holds behind its delimiter line: the header lines, an empty line and the
content.  With `full` false it is the part of the dry run, in which a file has no
content. -/
def partText (esc : String → String) (full : Bool) (e : String × FieldValue) : String :=
  match e with
  | (k, FieldValue.text v) => formFieldHeader esc k ++ "\r\n" ++ v
  | (k, FieldValue.file f) =>
    formFileHeader esc k f.Name ++ "\r\n" ++ (if full then f.Reader.data else "")

/-- The encoding of the parts `parts`, in this order, without the closing delimiter: every
part is preceded by its delimiter line, which starts with CRLF except at the very
beginning of the body (`first`). -/
def renderParts (boundary : String) (esc : String → String) (full : Bool) (first : Bool)
    (parts : List (String × FieldValue)) : String :=
  match parts with
  | [] => ""
  | e :: rest =>
    (if first then "--" else "\r\n--") ++ boundary ++ "\r\n" ++ partText esc full e
      ++ renderParts boundary esc full false rest

/-- A boundary of sixty characters for the stat writer. -/
def zeros : String := "000000000000000000000000000000000000000000000000000000000000"

/-- A boundary of sixty characters for the writer of the real pass. -/
def ones : String := "111111111111111111111111111111111111111111111111111111111111"

/-- The wrapper after the `WriteField` calls for the form with the entries `a = x` and
`b = y`. -/
def twoFieldWrapper : multipartWrapper :=
  writeEntries (fun s => s) [("a", FieldValue.text "x"), ("b", FieldValue.text "y")]
    (NewMultipart zeros ones)

/-! # Theorems -/

/-! ## Lookups in maps -/

theorem mapGet_nil {α : Type} (k : String) : mapGet ([] : List (String × α)) k = none := rfl

theorem mapGet_cons {α : Type} (e : String × α) (m : List (String × α)) (k : String) :
    mapGet (e :: m) k = if e.1 = k then some e.2 else mapGet m k := by
  unfold mapGet
  by_cases h : e.1 = k <;> simp [List.find?_cons, h]

theorem mapGet_append {α : Type} (m1 m2 : List (String × α)) (k : String) :
    mapGet (m1 ++ m2) k = (mapGet m1 k).or (mapGet m2 k) := by
  induction m1 with
  | nil => simp [mapGet_nil]
  | cons e m ih =>
    rw [List.cons_append, mapGet_cons, mapGet_cons, ih]
    by_cases h : e.1 = k <;> simp [h]

theorem mapGet_mapDelete_self {α : Type} (m : List (String × α)) (k : String) :
    mapGet (mapDelete m k) k = none := by
  induction m with
  | nil => rfl
  | cons e m ih =>
    unfold mapDelete at ih ⊢
    by_cases h : e.1 = k
    · simpa [List.filter_cons, h] using ih
    · simp [List.filter_cons, h, mapGet_cons, ih]

theorem mapGet_mapDelete_other {α : Type} (m : List (String × α)) (k k2 : String)
    (h : k2 ≠ k) : mapGet (mapDelete m k) k2 = mapGet m k2 := by
  induction m with
  | nil => rfl
  | cons e m ih =>
    unfold mapDelete at ih ⊢
    by_cases h1 : e.1 = k
    · have h2 : ¬ k = k2 := fun h3 => h h3.symm
      simpa [List.filter_cons, h1, mapGet_cons, h2] using ih
    · simp [List.filter_cons, h1, mapGet_cons, ih]

theorem mapGet_mapSet_self {α : Type} (m : List (String × α)) (k : String) (v : α) :
    mapGet (mapSet m k v) k = some v := by
  unfold mapSet
  rw [mapGet_append, mapGet_mapDelete_self, mapGet_cons]
  simp

theorem mapGet_mapSet_other {α : Type} (m : List (String × α)) (k k2 : String) (v : α)
    (h : k2 ≠ k) : mapGet (mapSet m k v) k2 = mapGet m k2 := by
  unfold mapSet
  rw [mapGet_append, mapGet_mapDelete_other m k k2 h, mapGet_cons]
  have h2 : ¬ k = k2 := fun h3 => h h3.symm
  simp [h2, mapGet_nil]

theorem calls_eq_expectedCalls (handler : Option Callback) (ep : EventProp)
    (event : ProgressEvent) :
    callHandler handler event ++ ep.callEventListener event
      = expectedCalls handler ep.eventListeners event := by
  unfold callHandler EventProp.callEventListener expectedCalls
  cases handler <;> cases mapGet ep.eventListeners event.type <;> rfl

/-- C9: firing an event of any of the six types builds one record of that type and calls
the dedicated handler (if assigned) and then the listener registered for that type (if
any), each once and with that same record; a progress record carries the two byte
counts and is length-computable, the others are not. -/
theorem fire_calls_handler_then_listener (ep : EventProp) (xhr : XMLHttpRequest)
    (loaded total : Int) :
    (ep.callOnload.event
        = { type := "load", LengthComputable := false, Loaded := 0, Total := 0 }
      ∧ ep.callOnload.calls = expectedCalls ep.Onload ep.eventListeners ep.callOnload.event)
    ∧ ((ep.callOnprogress loaded total).event
        = { type := "progress", LengthComputable := true, Loaded := loaded, Total := total }
      ∧ (ep.callOnprogress loaded total).calls
        = expectedCalls ep.Onprogress ep.eventListeners (ep.callOnprogress loaded total).event)
    ∧ (ep.callOnabort.event
        = { type := "abort", LengthComputable := false, Loaded := 0, Total := 0 }
      ∧ ep.callOnabort.calls = expectedCalls ep.Onabort ep.eventListeners ep.callOnabort.event)
    ∧ (ep.callOnerror.event
        = { type := "error", LengthComputable := false, Loaded := 0, Total := 0 }
      ∧ ep.callOnerror.calls = expectedCalls ep.Onerror ep.eventListeners ep.callOnerror.event)
    ∧ (ep.callOntimeout.event
        = { type := "timeout", LengthComputable := false, Loaded := 0, Total := 0 }
      ∧ ep.callOntimeout.calls
        = expectedCalls ep.Ontimeout ep.eventListeners ep.callOntimeout.event)
    ∧ (xhr.callOnreadystatechange.event
        = { type := "readystatechange", LengthComputable := false, Loaded := 0, Total := 0 }
      ∧ xhr.callOnreadystatechange.calls
        = expectedCalls xhr.Onreadystatechange xhr.EventProp.eventListeners
            xhr.callOnreadystatechange.event) := by
  refine ⟨⟨rfl, ?_⟩, ⟨rfl, ?_⟩, ⟨rfl, ?_⟩, ⟨rfl, ?_⟩, ⟨rfl, ?_⟩, ⟨rfl, ?_⟩⟩ <;>
    exact calls_eq_expectedCalls _ _ _

theorem callEventListener_of_mapGet (ep : EventProp) (event : ProgressEvent) (cb : Callback)
    (h : mapGet ep.eventListeners event.type = some cb) :
    ep.callEventListener event = [(cb, event)] := by
  unfold EventProp.callEventListener
  rw [h]

theorem callEventListener_of_mapGet_none (ep : EventProp) (event : ProgressEvent)
    (h : mapGet ep.eventListeners event.type = none) :
    ep.callEventListener event = [] := by
  unfold EventProp.callEventListener
  rw [h]

/-- C10: on either object, after two registrations for the type of a record the firing
of that record calls the second callback only, and after a removal it calls no
listener; a registration or removal leaves the handler fields of the object, its
listeners for other types, the `Onreadystatechange` field and the other object as they
were. -/
theorem listener_slot_last_write_wins (xhr : XMLHttpRequest) (t : Target)
    (event : ProgressEvent) (f g : Callback) :
    (((((xhr.apply (Op.addEventListener t event.type f)).xhr.apply
          (Op.addEventListener t event.type g)).xhr.eventProp t).callEventListener event
        = [(g, event)])
    ∧ (((xhr.apply (Op.removeEventListener t event.type)).xhr.eventProp t).callEventListener
          event = []))
    ∧ (∀ x2 : XMLHttpRequest,
        (x2 = (xhr.apply (Op.addEventListener t event.type f)).xhr
          ∨ x2 = (xhr.apply (Op.removeEventListener t event.type)).xhr) →
        (x2.eventProp t).handlers = (xhr.eventProp t).handlers
        ∧ x2.Onreadystatechange = xhr.Onreadystatechange
        ∧ (∀ other : String, other ≠ event.type →
            mapGet (x2.eventProp t).eventListeners other
              = mapGet (xhr.eventProp t).eventListeners other)
        ∧ (∀ t2 : Target, t2 ≠ t → x2.eventProp t2 = xhr.eventProp t2)) := by
  refine ⟨⟨?_, ?_⟩, ?_⟩
  · apply callEventListener_of_mapGet
    cases t <;>
      simp [XMLHttpRequest.apply, quiet, XMLHttpRequest.withEventProp,
        XMLHttpRequest.eventProp, EventProp.AddEventListener, mapGet_mapSet_self]
  · apply callEventListener_of_mapGet_none
    cases t <;>
      simp [XMLHttpRequest.apply, quiet, XMLHttpRequest.withEventProp,
        XMLHttpRequest.eventProp, EventProp.RemoveEventListener, mapGet_mapDelete_self]
  · intro x2 hx2
    rcases hx2 with h | h
    · subst h
      refine ⟨?_, ?_, ?_, ?_⟩
      · cases t <;> rfl
      · cases t <;> rfl
      · intro other hne
        cases t <;>
          simp [XMLHttpRequest.apply, quiet, XMLHttpRequest.withEventProp,
            XMLHttpRequest.eventProp, EventProp.AddEventListener,
            mapGet_mapSet_other _ _ _ _ hne]
      · intro t2 hne
        cases t <;> cases t2 <;> first | rfl | exact absurd rfl hne
    · subst h
      refine ⟨?_, ?_, ?_, ?_⟩
      · cases t <;> rfl
      · cases t <;> rfl
      · intro other hne
        cases t <;>
          simp [XMLHttpRequest.apply, quiet, XMLHttpRequest.withEventProp,
            XMLHttpRequest.eventProp, EventProp.RemoveEventListener,
            mapGet_mapDelete_other _ _ _ hne]
      · intro t2 hne
        cases t <;> cases t2 <;> first | rfl | exact absurd rfl hne

theorem noReadystatechange_append (l1 l2 : List Fired) (h1 : noReadystatechange l1)
    (h2 : noReadystatechange l2) : noReadystatechange (l1 ++ l2) := by
  intro f hf
  rcases List.mem_append.mp hf with h | h
  · exact h1 f h
  · exact h2 f h

theorem eventLoad_ne : eventLoad ≠ eventReadystatechange := by decide

theorem eventProgress_ne : eventProgress ≠ eventReadystatechange := by decide

theorem eventAbort_ne : eventAbort ≠ eventReadystatechange := by decide

theorem eventError_ne : eventError ≠ eventReadystatechange := by decide

theorem eventTimeout_ne : eventTimeout ≠ eventReadystatechange := by decide

theorem doReadystatechange_of_aborted (xhr : XMLHttpRequest) (state : Int)
    (h : xhr.aborted = true) : xhr.doReadystatechange state = (xhr, []) := by
  simp [XMLHttpRequest.doReadystatechange, h]

theorem doReadystatechange_of_not_aborted (xhr : XMLHttpRequest) (state : Int)
    (h : xhr.aborted = false) :
    xhr.doReadystatechange state
      = ({ xhr with ReadyState := state },
         [{ target := Target.main, readyState := state,
            event := xhr.callOnreadystatechange.event,
            calls := xhr.callOnreadystatechange.calls }]) := by
  simp [XMLHttpRequest.doReadystatechange, h, XMLHttpRequest.onMain,
    XMLHttpRequest.callOnreadystatechange]

theorem receive_keepsAborted (xhr : XMLHttpRequest) (contentLength : Int) (resp : Response)
    (h : xhr.aborted = true) : KeepsAborted xhr (xhr.receive contentLength resp) := by
  unfold XMLHttpRequest.receive
  cases hs : storeHeaders xhr.responseHeaders resp.Header with
  | none =>
    refine ⟨by simp [h], by simp, ?_⟩
    intro f hf
    simp [h, XMLHttpRequest.onUpload, EventProp.callOnprogress] at hf
    subst hf
    exact eventProgress_ne
  | some hs2 =>
    cases hb : resp.Body with
    | none =>
      refine ⟨?_, ?_, ?_⟩
      · simp [XMLHttpRequest.doReadystatechange, h]
      · simp [XMLHttpRequest.doReadystatechange, h]
      · intro f hf
        simp [XMLHttpRequest.doReadystatechange, h, XMLHttpRequest.onUpload,
          XMLHttpRequest.onMain, EventProp.callOnprogress, EventProp.callOnerror] at hf
        rcases hf with hf | hf <;> subst hf <;>
          first | exact eventProgress_ne | exact eventError_ne
    | some buf =>
      refine ⟨?_, ?_, ?_⟩
      · simp [XMLHttpRequest.doReadystatechange, h]
      · simp [XMLHttpRequest.doReadystatechange, h]
      · intro f hf
        simp [XMLHttpRequest.doReadystatechange, h, XMLHttpRequest.onUpload,
          XMLHttpRequest.onMain, EventProp.callOnprogress] at hf
        rcases hf with hf | hf <;> subst hf <;> exact eventProgress_ne

theorem receive_aborted_eq (xhr : XMLHttpRequest) (contentLength : Int) (resp : Response) :
    (xhr.receive contentLength resp).xhr.aborted = xhr.aborted := by
  unfold XMLHttpRequest.receive
  cases hs : storeHeaders xhr.responseHeaders resp.Header with
  | none => rfl
  | some hs2 =>
    cases ha : xhr.aborted <;> cases hb : resp.Body <;>
      simp [XMLHttpRequest.doReadystatechange, ha]

theorem Send_keepsAborted (host : Host) (xhr : XMLHttpRequest) (data : Body)
    (h : xhr.aborted = true) : KeepsAborted xhr (xhr.Send host data) := by
  unfold XMLHttpRequest.Send
  split
  · refine ⟨h, rfl, ?_⟩
    intro f hf
    simp only [List.mem_singleton] at hf
    subst hf
    exact eventError_ne
  · split
    · split
      · split
        · refine ⟨h, rfl, ?_⟩
          intro f hf
          simp only [List.mem_cons, List.mem_singleton, List.not_mem_nil, or_false] at hf
          rcases hf with hf | hf <;> subst hf <;> exact eventTimeout_ne
        · exact ⟨h, rfl, fun f hf => absurd hf (List.not_mem_nil f)⟩
      · refine ⟨h, rfl, ?_⟩
        intro f hf
        simp only [List.mem_cons, List.mem_singleton, List.not_mem_nil, or_false] at hf
        rcases hf with hf | hf <;> subst hf <;> exact eventError_ne
    · exact receive_keepsAborted xhr _ _ h

theorem Send_aborted_eq (host : Host) (xhr : XMLHttpRequest) (data : Body) :
    (xhr.Send host data).xhr.aborted = xhr.aborted := by
  unfold XMLHttpRequest.Send
  split
  · rfl
  · split
    · split
      · split <;> rfl
      · rfl
    · exact receive_aborted_eq xhr _ _

theorem Abort_keepsAborted (xhr : XMLHttpRequest) (h : xhr.aborted = true) :
    KeepsAborted xhr { xhr := xhr.Abort.1, fired := xhr.Abort.2, panicked := false } := by
  refine ⟨rfl, ?_, ?_⟩
  · simp [XMLHttpRequest.Abort, XMLHttpRequest.doReadystatechange, h]
  · intro f hf
    simp [XMLHttpRequest.Abort, XMLHttpRequest.doReadystatechange, h, XMLHttpRequest.onUpload,
      XMLHttpRequest.onMain, EventProp.callOnabort] at hf
    rcases hf with hf | hf <;> subst hf <;> exact eventAbort_ne

theorem Open_keepsAborted (xhr : XMLHttpRequest) (method url : String)
    (h : xhr.aborted = true) :
    KeepsAborted xhr
      { xhr := (xhr.Open method url).1, fired := (xhr.Open method url).2, panicked := false } := by
  refine ⟨?_, ?_, ?_⟩
  · simp [XMLHttpRequest.Open, XMLHttpRequest.doReadystatechange, h]
  · simp [XMLHttpRequest.Open, XMLHttpRequest.doReadystatechange, h]
  · intro f hf
    simp [XMLHttpRequest.Open, XMLHttpRequest.doReadystatechange, h] at hf

theorem apply_keepsAborted (xhr : XMLHttpRequest) (op : Op) (h : xhr.aborted = true) :
    KeepsAborted xhr (xhr.apply op) := by
  cases op with
  | «open» method url => exact Open_keepsAborted xhr method url h
  | setRequestHeader key value =>
    unfold XMLHttpRequest.apply XMLHttpRequest.SetRequestHeader
    cases xhr.requestHeaders <;>
      exact ⟨h, rfl, fun f hf => absurd hf (List.not_mem_nil f)⟩
  | send host data => exact Send_keepsAborted host xhr data h
  | abort => exact Abort_keepsAborted xhr h
  | addEventListener t event cb =>
    cases t <;> exact ⟨h, rfl, fun f hf => absurd hf (List.not_mem_nil f)⟩
  | removeEventListener t event =>
    cases t <;> exact ⟨h, rfl, fun f hf => absurd hf (List.not_mem_nil f)⟩
  | assign t slot cb =>
    cases t <;> cases slot <;> exact ⟨h, rfl, fun f hf => absurd hf (List.not_mem_nil f)⟩
  | assignOnreadystatechange cb => exact ⟨h, rfl, fun f hf => absurd hf (List.not_mem_nil f)⟩
  | assignTimeout ms => exact ⟨h, rfl, fun f hf => absurd hf (List.not_mem_nil f)⟩

theorem run_keepsAborted (ops : List Op) (xhr : XMLHttpRequest) (h : xhr.aborted = true) :
    KeepsAborted xhr (xhr.run ops) := by
  induction ops generalizing xhr with
  | nil => exact ⟨h, rfl, fun f hf => absurd hf (List.not_mem_nil f)⟩
  | cons op rest ih =>
    have h1 := apply_keepsAborted xhr op h
    have h2 := ih (xhr.apply op).xhr h1.aborted
    unfold XMLHttpRequest.run
    exact ⟨h2.aborted, h2.readyState.trans h1.readyState,
      noReadystatechange_append _ _ h1.silent h2.silent⟩

theorem apply_abortedUnsent (xhr : XMLHttpRequest) (op : Op) (h : AbortedUnsent xhr) :
    AbortedUnsent (xhr.apply op).xhr := by
  cases ha : xhr.aborted with
  | true =>
    intro _
    rw [(apply_keepsAborted xhr op ha).readyState]
    exact h ha
  | false =>
    cases op with
    | «open» method url =>
      intro h2
      simp [XMLHttpRequest.apply, XMLHttpRequest.Open, XMLHttpRequest.doReadystatechange, ha]
        at h2
    | setRequestHeader key value =>
      intro h2
      unfold XMLHttpRequest.apply XMLHttpRequest.SetRequestHeader at h2
      cases hr : xhr.requestHeaders <;> simp [hr, ha] at h2
    | send host data =>
      intro h2
      simp only [XMLHttpRequest.apply] at h2
      rw [Send_aborted_eq, ha] at h2
      exact absurd h2 (by decide)
    | abort =>
      intro _
      simp [XMLHttpRequest.apply, XMLHttpRequest.Abort, XMLHttpRequest.doReadystatechange, ha]
    | addEventListener t event cb =>
      intro h2
      cases t <;> exact absurd (ha.symm.trans h2) (by decide)
    | removeEventListener t event =>
      intro h2
      cases t <;> exact absurd (ha.symm.trans h2) (by decide)
    | assign t slot cb =>
      intro h2
      cases t <;> cases slot <;> exact absurd (ha.symm.trans h2) (by decide)
    | assignOnreadystatechange cb =>
      intro h2
      exact absurd (ha.symm.trans h2) (by decide)
    | assignTimeout ms =>
      intro h2
      exact absurd (ha.symm.trans h2) (by decide)

theorem run_abortedUnsent (ops : List Op) (xhr : XMLHttpRequest) (h : AbortedUnsent xhr) :
    AbortedUnsent (xhr.run ops).xhr := by
  induction ops generalizing xhr with
  | nil => exact h
  | cons op rest ih =>
    unfold XMLHttpRequest.run
    exact ih (xhr.apply op).xhr (apply_abortedUnsent xhr op h)

theorem reachable_abortedUnsent (xhr : XMLHttpRequest) (h : Reachable xhr) :
    AbortedUnsent xhr := by
  obtain ⟨proxyUrl, ops, rfl⟩ := h
  exact run_abortedUnsent ops _ (fun h2 => by simp [XMLHttpRequest.new] at h2)

theorem reachable_new (proxyUrl : Option String) : Reachable (XMLHttpRequest.new proxyUrl) :=
  ⟨proxyUrl, [], rfl⟩

theorem reachable_run (xhr : XMLHttpRequest) (ops : List Op) (h : Reachable xhr) :
    Reachable (xhr.run ops).xhr := by
  obtain ⟨proxyUrl, ops0, rfl⟩ := h
  refine ⟨proxyUrl, ops0 ++ ops, ?_⟩
  generalize XMLHttpRequest.new proxyUrl = x
  induction ops0 generalizing x with
  | nil => simp [XMLHttpRequest.run, quiet]
  | cons op rest ih =>
    simp only [List.cons_append, XMLHttpRequest.run]
    exact ih (x.apply op).xhr

/-- C1 (evaluation at the failing input): a request is opened and aborted, then `Send`
is called and the native call succeeds.  `Send` fires a progress event on the upload
object and one on the request object; it fires no load event and leaves the ready
state at 0. -/
theorem Send_on_aborted_request_fires_progress :
    abortedRequest.aborted = true
    ∧ labels (abortedRequest.Send (exampleHost (DoResult.ok exampleResponse)) Body.absent).fired
        = [(Target.upload, "progress"), (Target.main, "progress")]
    ∧ (abortedRequest.Send (exampleHost (DoResult.ok exampleResponse)) Body.absent).xhr.ReadyState
        = 0 := by
  decide

/-! ## Failures of the native call -/

/-- C3: when `http.NewRequest` succeeds, the native call fails with a timeout-class error
and the configured `Timeout` is positive, `Send` fires one timeout event on the upload
object and then one on the request object, nothing else, and leaves the request as it
was. -/
theorem Send_deadline_fires_timeout_only (host : Host) (xhr : XMLHttpRequest) (data : Body)
    (hreq : host.newRequestFails xhr.method xhr.url = false)
    (hdo : host.Do (xhr.nativeRequest host data) = DoResult.failed true)
    (ht : xhr.Timeout > 0) :
    (xhr.Send host data).fired
        = [xhr.onUpload xhr.Upload.callOntimeout, xhr.onMain xhr.EventProp.callOntimeout]
    ∧ labels (xhr.Send host data).fired = [(Target.upload, "timeout"), (Target.main, "timeout")]
    ∧ (xhr.Send host data).xhr = xhr
    ∧ (xhr.Send host data).panicked = false := by
  have h : xhr.Send host data
      = { xhr := xhr,
          fired := [xhr.onUpload xhr.Upload.callOntimeout,
                    xhr.onMain xhr.EventProp.callOntimeout],
          panicked := false } := by
    simp [XMLHttpRequest.Send, hreq, hdo, ht]
  rw [h]
  exact ⟨rfl, rfl, rfl, rfl⟩

/-- An instance: a request opened with a timeout of 300 ms whose native call ends in a
timeout-class error. -/
theorem Send_deadline_fires_timeout_only_witness :
    (exampleHost (DoResult.failed true)).newRequestFails timedRequest.method timedRequest.url
        = false
    ∧ (exampleHost (DoResult.failed true)).Do
        (timedRequest.nativeRequest (exampleHost (DoResult.failed true)) Body.absent)
        = DoResult.failed true
    ∧ timedRequest.Timeout > 0
    ∧ labels (timedRequest.Send (exampleHost (DoResult.failed true)) Body.absent).fired
        = [(Target.upload, "timeout"), (Target.main, "timeout")] :=
  ⟨rfl, rfl, by decide,
    (Send_deadline_fires_timeout_only (exampleHost (DoResult.failed true)) timedRequest
      Body.absent rfl rfl (by decide)).2.1⟩

/-- C4 (evaluation at the failing input): the request is opened, no timeout is configured,
and the native call fails with a timeout-class error.  `Send` returns without firing any
event. -/
theorem Send_timeout_class_error_without_timeout_is_silent :
    openedRequest.Timeout = 0
    ∧ (openedRequest.Send (exampleHost (DoResult.failed true)) Body.absent).fired = [] := by
  decide

/-- C6 (evaluation at the failing input): the request is opened, aborted once, and the
native call of `Send` then fails with an error that is not timeout-class.  The request
object receives one abort event and also one error event. -/
theorem abort_then_failed_Send_fires_error :
    labels ((XMLHttpRequest.new none).run
        [Op.open "GET" "http://host/get", Op.abort,
         Op.send (exampleHost (DoResult.failed false)) Body.absent]).fired
      = [(Target.main, "readystatechange"), (Target.main, "readystatechange"),
         (Target.upload, "abort"), (Target.main, "abort"),
         (Target.upload, "error"), (Target.main, "error")] := by
  decide

/-! ## Abort -/

/-- C5: on a reachable request, `Abort` leaves `aborted` true and the ready state 0; it
fires a readystatechange (seen in state 0) exactly when the request was not aborted
before, then one abort event on the upload object and one on the request object. -/
theorem Abort_resets_and_fires_abort (xhr : XMLHttpRequest) (hr : Reachable xhr) :
    xhr.Abort.1.aborted = true
    ∧ xhr.Abort.1.ReadyState = 0
    ∧ labels xhr.Abort.2
        = (if xhr.aborted then [] else [(Target.main, "readystatechange")])
          ++ [(Target.upload, "abort"), (Target.main, "abort")]
    ∧ (∀ f ∈ xhr.Abort.2, f.readyState = 0) := by
  have hinv := reachable_abortedUnsent xhr hr
  cases ha : xhr.aborted with
  | true =>
    have h0 := hinv ha
    refine ⟨rfl, ?_, ?_, ?_⟩
    · simp [XMLHttpRequest.Abort, XMLHttpRequest.doReadystatechange, ha, h0]
    · simp [XMLHttpRequest.Abort, XMLHttpRequest.doReadystatechange, ha, labels,
        XMLHttpRequest.onUpload, XMLHttpRequest.onMain, EventProp.callOnabort, eventAbort]
    · intro f hf
      simp [XMLHttpRequest.Abort, XMLHttpRequest.doReadystatechange, ha,
        XMLHttpRequest.onUpload, XMLHttpRequest.onMain] at hf
      rcases hf with hf | hf <;> subst hf <;> exact h0
  | false =>
    refine ⟨rfl, ?_, ?_, ?_⟩
    · simp [XMLHttpRequest.Abort, XMLHttpRequest.doReadystatechange, ha]
    · simp [XMLHttpRequest.Abort, XMLHttpRequest.doReadystatechange, ha, labels,
        XMLHttpRequest.onUpload, XMLHttpRequest.onMain, EventProp.callOnabort, eventAbort,
        XMLHttpRequest.callOnreadystatechange, eventReadystatechange]
    · intro f hf
      simp [XMLHttpRequest.Abort, XMLHttpRequest.doReadystatechange, ha,
        XMLHttpRequest.onUpload, XMLHttpRequest.onMain] at hf
      rcases hf with hf | hf | hf <;> subst hf <;> rfl

/-- An instance: `Abort` on a request that was opened and not yet aborted. -/
theorem Abort_resets_and_fires_abort_witness :
    Reachable openedRequest
    ∧ labels openedRequest.Abort.2
        = [(Target.main, "readystatechange"), (Target.upload, "abort"), (Target.main, "abort")]
    ∧ openedRequest.Abort.1.ReadyState = 0 :=
  ⟨reachable_run _ _ (reachable_new none),
    (Abort_resets_and_fires_abort openedRequest
      (reachable_run _ _ (reachable_new none))).2.2.1,
    (Abort_resets_and_fires_abort openedRequest
      (reachable_run _ _ (reachable_new none))).2.1⟩

/-- C7: a reachable request that is aborted is in ready state 0, and after any further
sequence of operations (open, setRequestHeader, send with any host and body, abort,
listener and handler changes) it is still aborted and in ready state 0, and none of the
events fired by those operations is a readystatechange. -/
theorem aborted_is_permanent (xhr : XMLHttpRequest) (ops : List Op) (hr : Reachable xhr)
    (ha : xhr.aborted = true) :
    xhr.ReadyState = 0
    ∧ (xhr.run ops).xhr.aborted = true
    ∧ (xhr.run ops).xhr.ReadyState = 0
    ∧ (∀ f ∈ (xhr.run ops).fired, f.event.type ≠ "readystatechange") := by
  have h0 := reachable_abortedUnsent xhr hr ha
  have hk := run_keepsAborted ops xhr ha
  exact ⟨h0, hk.aborted, hk.readyState.trans h0, hk.silent⟩

/-- An instance: on an aborted request, `Open`, `SetRequestHeader`, a successful `Send`
with a text body and a second `Abort`. -/
theorem aborted_is_permanent_witness :
    Reachable abortedRequest
    ∧ abortedRequest.aborted = true
    ∧ (abortedRequest.run
        [Op.open "POST" "http://host/text", Op.setRequestHeader "Accept" "text/plain",
         Op.send (exampleHost (DoResult.ok exampleResponse)) (Body.text "test"),
         Op.abort]).xhr.ReadyState = 0
    ∧ (∀ f ∈ (abortedRequest.run
        [Op.open "POST" "http://host/text", Op.setRequestHeader "Accept" "text/plain",
         Op.send (exampleHost (DoResult.ok exampleResponse)) (Body.text "test"),
         Op.abort]).fired, f.event.type ≠ "readystatechange") :=
  ⟨reachable_run _ _ (reachable_new none), by decide,
    (aborted_is_permanent abortedRequest _ (reachable_run _ _ (reachable_new none))
      (by decide)).2.2.1,
    (aborted_is_permanent abortedRequest _ (reachable_run _ _ (reachable_new none))
      (by decide)).2.2.2⟩

theorem setRequestHeaders_of_opened (headers : List (String × String)) (xhr : XMLHttpRequest)
    (m : List (String × String)) (h : xhr.requestHeaders = some m) :
    ∃ m2, xhr.setRequestHeaders headers = { xhr with requestHeaders := some m2 } := by
  induction headers generalizing xhr m with
  | nil => exact ⟨m, by cases xhr; cases h; rfl⟩
  | cons kv rest ih =>
    obtain ⟨key, value⟩ := kv
    have h1 : (xhr.SetRequestHeader key value).xhr
        = { xhr with requestHeaders := some (mapSet m key value) } := by
      simp [XMLHttpRequest.SetRequestHeader, h]
    obtain ⟨m2, h2⟩ := ih (xhr.SetRequestHeader key value).xhr (mapSet m key value)
      (by rw [h1])
    refine ⟨m2, ?_⟩
    unfold XMLHttpRequest.setRequestHeaders
    rw [h2, h1]

theorem readyStates_eq_views (fired : List Fired) :
    readyStates fired = (views fired).map (fun v => v.2.2) := by
  simp [readyStates, views]

theorem readyStates_firings_eq_views (fired : List Fired) (t : Target) (type : String) :
    readyStates (firings fired t type)
      = ((views fired).filter (fun v => v.1 = t ∧ v.2.1 = type)).map (fun v => v.2.2) := by
  unfold readyStates firings views
  rw [List.filter_map, List.map_map]
  rfl

theorem Send_of_response (host : Host) (xhr : XMLHttpRequest) (data : Body) (resp : Response)
    (hreq : host.newRequestFails xhr.method xhr.url = false)
    (hdo : host.Do (xhr.nativeRequest host data) = DoResult.ok resp) :
    xhr.Send host data = xhr.receive (xhr.encode host data).contentLength resp := by
  simp [XMLHttpRequest.Send, hreq, hdo]

theorem receive_complete (xhr : XMLHttpRequest) (contentLength : Int) (resp : Response)
    (buf : String) (m : List (String × String)) (ha : xhr.aborted = false)
    (hm : xhr.responseHeaders = some m) (hbody : resp.Body = some buf) :
    views (xhr.receive contentLength resp).fired
      = [(Target.upload, "progress", xhr.ReadyState), (Target.upload, "load", xhr.ReadyState),
         (Target.main, "readystatechange", 2), (Target.main, "readystatechange", 3),
         (Target.main, "readystatechange", 4), (Target.main, "progress", 4),
         (Target.main, "load", 4)]
    ∧ (xhr.receive contentLength resp).xhr.ReadyState = 4
    ∧ (xhr.receive contentLength resp).panicked = false := by
  have hs : storeHeaders xhr.responseHeaders resp.Header
      = some (some (resp.Header.foldl (fun m kv => mapSet m kv.1 kv.2) m)) := by
    rw [hm]
    rfl
  unfold XMLHttpRequest.receive
  simp only [hs, hbody]
  simp [XMLHttpRequest.doReadystatechange, ha, views, XMLHttpRequest.onMain,
    XMLHttpRequest.onUpload, XMLHttpRequest.callOnreadystatechange, EventProp.callOnprogress,
    EventProp.callOnload, eventReadystatechange, eventProgress, eventLoad]

/-- C8: on a request that is not aborted, `Open`, any `SetRequestHeader` calls and a
`Send` without body whose native call and body read succeed fire readystatechange in
ready state 1 (in `Open`) and then in ready states 2, 3 and 4 (in `Send`); the ready
state seen by the successive events of the cycle is 1, 1, 1, 2, 3, 4, 4, 4, so it
never decreases, and it is 4 at the end. -/
theorem readyState_progression (host : Host) (xhr : XMLHttpRequest) (method url : String)
    (headers : List (String × String)) (resp : Response) (buf : String)
    (ha : xhr.aborted = false)
    (hreq : host.newRequestFails method url = false)
    (hdo : host.Do (((xhr.Open method url).1.setRequestHeaders headers).nativeRequest host
      Body.absent) = DoResult.ok resp)
    (hbody : resp.Body = some buf) :
    readyStates (firings (xhr.Open method url).2 Target.main "readystatechange") = [1]
    ∧ readyStates (firings
        (((xhr.Open method url).1.setRequestHeaders headers).Send host Body.absent).fired
        Target.main "readystatechange") = [2, 3, 4]
    ∧ readyStates ((xhr.Open method url).2
        ++ (((xhr.Open method url).1.setRequestHeaders headers).Send host Body.absent).fired)
        = [1, 1, 1, 2, 3, 4, 4, 4]
    ∧ List.Pairwise (fun a b => a ≤ b) (readyStates ((xhr.Open method url).2
        ++ (((xhr.Open method url).1.setRequestHeaders headers).Send host Body.absent).fired))
    ∧ (((xhr.Open method url).1.setRequestHeaders headers).Send host Body.absent).xhr.ReadyState
        = 4
    ∧ (((xhr.Open method url).1.setRequestHeaders headers).Send host Body.absent).panicked
        = false := by
  have hopen : xhr.Open method url
      = ({ xhr with method := method, url := url, requestHeaders := some [],
                    responseHeaders := some [], ReadyState := 1 },
         [{ target := Target.main, readyState := 1,
            event := xhr.callOnreadystatechange.event,
            calls := xhr.callOnreadystatechange.calls }]) := by
    simp [XMLHttpRequest.Open, XMLHttpRequest.doReadystatechange, ha, XMLHttpRequest.onMain,
      XMLHttpRequest.callOnreadystatechange]
  have hv1 : views (xhr.Open method url).2 = [(Target.main, "readystatechange", 1)] := by
    rw [hopen]
    rfl
  obtain ⟨m2, hm2⟩ := setRequestHeaders_of_opened headers (xhr.Open method url).1 []
    (by rw [hopen])
  generalize (xhr.Open method url).1.setRequestHeaders headers = x2 at hdo hm2 ⊢
  have hx2a : x2.aborted = false := by rw [hm2, hopen]; exact ha
  have hx2m : x2.method = method := by rw [hm2, hopen]
  have hx2u : x2.url = url := by rw [hm2, hopen]
  have hx2h : x2.responseHeaders = some [] := by rw [hm2, hopen]
  have hx2r : x2.ReadyState = 1 := by rw [hm2, hopen]
  have hsend := Send_of_response host x2 Body.absent resp (by rw [hx2m, hx2u]; exact hreq) hdo
  obtain ⟨hv2, hr2, hp2⟩ :=
    receive_complete x2 (x2.encode host Body.absent).contentLength resp buf [] hx2a hx2h hbody
  rw [← hsend, hx2r] at hv2
  rw [← hsend] at hr2 hp2
  have hall : views ((xhr.Open method url).2 ++ (x2.Send host Body.absent).fired)
      = [(Target.main, "readystatechange", 1),
         (Target.upload, "progress", 1), (Target.upload, "load", 1),
         (Target.main, "readystatechange", 2), (Target.main, "readystatechange", 3),
         (Target.main, "readystatechange", 4), (Target.main, "progress", 4),
         (Target.main, "load", 4)] := by
    unfold views at hv1 hv2 ⊢
    rw [List.map_append, hv1, hv2]
    rfl
  refine ⟨?_, ?_, ?_, ?_, hr2, hp2⟩
  · rw [readyStates_firings_eq_views, hv1]
    decide
  · rw [readyStates_firings_eq_views, hv2]
    decide
  · rw [readyStates_eq_views, hall]
    rfl
  · rw [readyStates_eq_views, hall]
    decide

/-- An instance: a new request, `GET`, one header, and a native call that returns status
200 with the body `ok`. -/
theorem readyState_progression_witness :
    (XMLHttpRequest.new none).aborted = false
    ∧ readyStates (((XMLHttpRequest.new none).Open "GET" "http://host/get").2
        ++ ((((XMLHttpRequest.new none).Open "GET" "http://host/get").1.setRequestHeaders
            [("Accept", "text/plain")]).Send (exampleHost (DoResult.ok exampleResponse))
            Body.absent).fired)
        = [1, 1, 1, 2, 3, 4, 4, 4] :=
  ⟨rfl,
    (readyState_progression (exampleHost (DoResult.ok exampleResponse)) (XMLHttpRequest.new none)
      "GET" "http://host/get" [("Accept", "text/plain")] exampleResponse "ok" rfl rfl rfl
      rfl).2.2.1⟩

set_option maxRecDepth 100000 in
/-- C2 (evaluation at the failing input): for the form with the entries `a = x` and
`a = y`, `Size()` returns 288, the length of two parts and the closing delimiter, while
`Send()` followed by `Close()` writes 177 bytes, one part and the closing delimiter. -/
theorem Size_counts_replaced_entry :
    duplicateNameWrapper.fields = [("a", FieldValue.text "y")]
    ∧ (duplicateNameWrapper.Size (fun m => m)).2 = 288
    ∧ ((duplicateNameWrapper.Send (fun s => s) (fun m => m)).Close.writer.out.length : Int)
        = 177 := by
  decide

/-! ## The declared length of a multipart body when no field name repeats -/

theorem mapDelete_of_not_mem {α : Type} (m : List (String × α)) (k : String)
    (h : k ∉ m.map Prod.fst) : mapDelete m k = m := by
  unfold mapDelete
  rw [List.filter_eq_self]
  intro e he
  have hne : e.1 ≠ k := fun h2 => h (h2 ▸ List.mem_map_of_mem Prod.fst he)
  simp [hne]

theorem writeEntries_fields (esc : String → String) (entries : List (String × FieldValue))
    (mw : multipartWrapper)
    (hnew : ∀ e ∈ entries, e.1 ∉ mw.fields.map Prod.fst)
    (hnames : (entries.map Prod.fst).Nodup) :
    (writeEntries esc entries mw).fields = mw.fields ++ entries := by
  induction entries generalizing mw with
  | nil => simp [writeEntries]
  | cons e rest ih =>
    obtain ⟨k, v⟩ := e
    have hk : k ∉ mw.fields.map Prod.fst := hnew (k, v) (List.mem_cons_self _ _)
    rw [List.map_cons, List.nodup_cons] at hnames
    have hrest : ∀ e2 ∈ rest, e2.1 ∉ (mw.fields ++ [(k, v)]).map Prod.fst := by
      intro e2 he2 hmem
      rw [List.map_append, List.mem_append] at hmem
      rcases hmem with h1 | h1
      · exact hnew e2 (List.mem_cons_of_mem _ he2) h1
      · simp only [List.map_cons, List.map_nil, List.mem_singleton] at h1
        have h2 : e2.1 ∈ rest.map Prod.fst := List.mem_map_of_mem Prod.fst he2
        rw [h1] at h2
        exact hnames.1 h2
    cases v with
    | text value =>
      have hf : (mw.WriteField esc k value).fields = mw.fields ++ [(k, FieldValue.text value)] := by
        simp [multipartWrapper.WriteField, mapSet, mapDelete_of_not_mem _ _ hk]
      unfold writeEntries
      rw [ih (mw.WriteField esc k value) (by rw [hf]; exact hrest) hnames.2, hf]
      simp
    | file f =>
      have hf : (mw.WriteFile esc k f).fields = mw.fields ++ [(k, FieldValue.file f)] := by
        simp [multipartWrapper.WriteFile, mapSet, mapDelete_of_not_mem _ _ hk]
      unfold writeEntries
      rw [ih (mw.WriteFile esc k f) (by rw [hf]; exact hrest) hnames.2, hf]
      simp

theorem writeEntries_writer (esc : String → String) (entries : List (String × FieldValue))
    (mw : multipartWrapper) : (writeEntries esc entries mw).writer = mw.writer := by
  induction entries generalizing mw with
  | nil => rfl
  | cons e rest ih =>
    obtain ⟨k, v⟩ := e
    cases v <;> (unfold writeEntries; rw [ih]; rfl)

theorem CreatePart_length (w : Writer) (header : String) :
    (w.CreatePart header).out.length + (if w.lastpart then 0 else 2)
      = w.out.length + (w.boundary.length + 6 + (header.length + 2)) := by
  unfold Writer.CreatePart
  cases hl : w.lastpart
  · simp [String.length_append]
    have h1 : "--".length = 2 := by decide
    have h2 : "\r\n".length = 2 := by decide
    omega
  · simp [String.length_append]
    have h1 : "\r\n--".length = 4 := by decide
    have h2 : "\r\n".length = 2 := by decide
    omega

/-- What writing one entry in the real pass does to the writer. -/
theorem sendLoop_cons (esc : String → String) (e : String × FieldValue)
    (rest : List (String × FieldValue)) (w : Writer) :
    ∃ w1 : Writer, sendLoop esc (e :: rest) w = sendLoop esc rest w1
      ∧ w1.boundary = w.boundary ∧ w1.lastpart = true
      ∧ w1.out.length + (if w.lastpart then 0 else 2)
          = w.out.length + (w.boundary.length + 6 + partLength esc e) := by
  obtain ⟨k, v⟩ := e
  cases v with
  | text value =>
    refine ⟨w.WriteField esc k value, rfl, rfl, rfl, ?_⟩
    have h := CreatePart_length w (formFieldHeader esc k)
    simp only [Writer.WriteField, Writer.CreateFormField, Writer.Write, String.length_append,
      partLength]
    omega
  | file f =>
    refine ⟨(w.CreateFormFile esc k f.Name).Write f.Reader.data, rfl, rfl, rfl, ?_⟩
    have h := CreatePart_length w (formFileHeader esc k f.Name)
    simp only [Writer.CreateFormFile, Writer.Write, String.length_append, partLength]
    omega

theorem sendLoop_length (esc : String → String) (visit : List (String × FieldValue))
    (w : Writer) :
    (sendLoop esc visit w).boundary = w.boundary
    ∧ (sendLoop esc visit w).out.length + (if w.lastpart || visit.isEmpty then 0 else 2)
        = w.out.length + (visit.map (fun e => w.boundary.length + 6 + partLength esc e)).sum := by
  induction visit generalizing w with
  | nil => simp [sendLoop]
  | cons e rest ih =>
    obtain ⟨w1, h1, hb, hl, hlen⟩ := sendLoop_cons esc e rest w
    obtain ⟨ihb, ihlen⟩ := ih w1
    rw [h1, ihb, hb]
    refine ⟨rfl, ?_⟩
    rw [hl, hb] at ihlen
    simp only [Bool.true_or, if_true, Nat.add_zero] at ihlen
    simp only [List.isEmpty_cons, Bool.or_false, List.map_cons, List.sum_cons]
    generalize (rest.map (fun e => w.boundary.length + 6 + partLength esc e)).sum = total
      at ihlen ⊢
    cases hw : w.lastpart <;> simp [hw] at hlen ⊢ <;> omega

/-- What writing one entry in the dry run does to the stat writer. -/
theorem writeEntries_cons (esc : String → String) (e : String × FieldValue)
    (rest : List (String × FieldValue)) (mw : multipartWrapper) :
    ∃ mw1 : multipartWrapper, writeEntries esc (e :: rest) mw = writeEntries esc rest mw1
      ∧ mw1.statWriter.boundary = mw.statWriter.boundary ∧ mw1.statWriter.lastpart = true
      ∧ mw1.statWriter.out.length + (if mw.statWriter.lastpart then 0 else 2)
          = mw.statWriter.out.length
            + (mw.statWriter.boundary.length + 6 + stubLength esc e) := by
  obtain ⟨k, v⟩ := e
  cases v with
  | text value =>
    refine ⟨mw.WriteField esc k value, rfl, rfl, rfl, ?_⟩
    have h := CreatePart_length mw.statWriter (formFieldHeader esc k)
    simp only [multipartWrapper.WriteField, Writer.WriteField, Writer.CreateFormField,
      Writer.Write, String.length_append, stubLength]
    omega
  | file f =>
    refine ⟨mw.WriteFile esc k f, rfl, rfl, rfl, ?_⟩
    have h := CreatePart_length mw.statWriter (formFileHeader esc k f.Name)
    simp only [multipartWrapper.WriteFile, Writer.CreateFormFile, stubLength]
    omega

theorem writeEntries_length (esc : String → String) (entries : List (String × FieldValue))
    (mw : multipartWrapper) :
    (writeEntries esc entries mw).statWriter.boundary = mw.statWriter.boundary
    ∧ (writeEntries esc entries mw).statWriter.out.length
          + (if mw.statWriter.lastpart || entries.isEmpty then 0 else 2)
        = mw.statWriter.out.length
          + (entries.map (fun e => mw.statWriter.boundary.length + 6 + stubLength esc e)).sum := by
  induction entries generalizing mw with
  | nil => simp [writeEntries]
  | cons e rest ih =>
    obtain ⟨mw1, h1, hb, hl, hlen⟩ := writeEntries_cons esc e rest mw
    obtain ⟨ihb, ihlen⟩ := ih mw1
    rw [h1, ihb, hb]
    refine ⟨rfl, ?_⟩
    rw [hl, hb] at ihlen
    simp only [Bool.true_or, if_true, Nat.add_zero] at ihlen
    simp only [List.isEmpty_cons, Bool.or_false, List.map_cons, List.sum_cons]
    generalize (rest.map (fun e => mw.statWriter.boundary.length + 6 + stubLength esc e)).sum
      = total at ihlen ⊢
    cases hw : mw.statWriter.lastpart <;> simp [hw] at hlen ⊢ <;> omega

theorem int64_of_fits (x : Int) (h0 : 0 ≤ x) (h1 : x < 2 ^ 63) : int64 x = x := by
  unfold int64
  norm_num at h1 ⊢
  omega

theorem sizeLoop_eq (visit : List (String × FieldValue)) (size : Int) (h0 : 0 ≤ size)
    (hnn : ∀ e ∈ visit, 0 ≤ declaredSize e)
    (hfit : size + (visit.map declaredSize).sum < 2 ^ 63) :
    sizeLoop visit size = size + (visit.map declaredSize).sum := by
  induction visit generalizing size with
  | nil => simp [sizeLoop]
  | cons e rest ih =>
    obtain ⟨k, v⟩ := e
    have hrest : ∀ e ∈ rest, 0 ≤ declaredSize e := fun e he => hnn e (List.mem_cons_of_mem _ he)
    have hsum : 0 ≤ (rest.map declaredSize).sum :=
      List.sum_nonneg (fun x hx => by
        obtain ⟨e, he, rfl⟩ := List.mem_map.mp hx
        exact hrest e he)
    cases v with
    | text value =>
      simp only [List.map_cons, List.sum_cons, declaredSize, zero_add] at hfit ⊢
      unfold sizeLoop
      exact ih size h0 hrest hfit
    | file f =>
      have hf : 0 ≤ f.Size := hnn (k, FieldValue.file f) (List.mem_cons_self _ _)
      simp only [List.map_cons, List.sum_cons, declaredSize] at hfit ⊢
      unfold sizeLoop
      rw [int64_of_fits (size + f.Size) (by omega) (by omega)]
      rw [ih (size + f.Size) (by omega) hrest (by omega)]
      omega

theorem sum_declaredSize (entries : List (String × FieldValue))
    (h : ∀ e ∈ entries, declaredSize e = (readerLength e : Int)) :
    (entries.map declaredSize).sum = ((entries.map readerLength).sum : Int) := by
  induction entries with
  | nil => rfl
  | cons e rest ih =>
    simp only [List.map_cons, List.sum_cons, Nat.cast_add]
    rw [ih (fun e he => h e (List.mem_cons_of_mem _ he)), h e (List.mem_cons_self _ _)]

theorem sum_partLength (esc : String → String) (c : Nat) (entries : List (String × FieldValue)) :
    (entries.map (fun e => c + 6 + partLength esc e)).sum
      = (entries.map (fun e => c + 6 + stubLength esc e)).sum
        + (entries.map readerLength).sum := by
  induction entries with
  | nil => rfl
  | cons e rest ih =>
    obtain ⟨k, v⟩ := e
    simp only [List.map_cons, List.sum_cons, ih]
    cases v <;> simp only [partLength, stubLength, readerLength] <;> omega

theorem sendLoop_fresh_length (esc : String → String) (visit : List (String × FieldValue))
    (boundary : String) :
    (sendLoop esc visit (NewWriter boundary)).boundary = boundary
    ∧ (sendLoop esc visit (NewWriter boundary)).out.length + (if visit.isEmpty then 0 else 2)
        = (visit.map (fun e => boundary.length + 6 + partLength esc e)).sum := by
  obtain ⟨h1, h2⟩ := sendLoop_length esc visit (NewWriter boundary)
  have h0 : ("" : String).length = 0 := rfl
  simp only [NewWriter, Bool.false_or, h0, Nat.zero_add] at h1 h2
  exact ⟨h1, h2⟩

theorem writeEntries_fresh_length (esc : String → String)
    (entries : List (String × FieldValue)) (statBoundary boundary : String) :
    (writeEntries esc entries (NewMultipart statBoundary boundary)).statWriter.boundary
      = statBoundary
    ∧ (writeEntries esc entries (NewMultipart statBoundary boundary)).statWriter.out.length
          + (if entries.isEmpty then 0 else 2)
        = (entries.map (fun e => statBoundary.length + 6 + stubLength esc e)).sum := by
  obtain ⟨h1, h2⟩ := writeEntries_length esc entries (NewMultipart statBoundary boundary)
  have h0 : ("" : String).length = 0 := rfl
  simp only [NewMultipart, NewWriter, Bool.false_or, h0, Nat.zero_add] at h1 h2
  exact ⟨h1, h2⟩

theorem writeEntries_fresh_fields (esc : String → String)
    (entries : List (String × FieldValue)) (statBoundary boundary : String)
    (hnames : (entries.map Prod.fst).Nodup) :
    (writeEntries esc entries (NewMultipart statBoundary boundary)).fields = entries := by
  have h := writeEntries_fields esc entries (NewMultipart statBoundary boundary)
    (fun e _ h => by simp [NewMultipart] at h) hnames
  simpa [NewMultipart] using h

theorem Close_length (w : Writer) : w.Close.out.length = w.out.length + (w.boundary.length + 8) := by
  simp only [Writer.Close, String.length_append]
  have h1 : "\r\n--".length = 4 := by decide
  have h2 : "--\r\n".length = 4 := by decide
  omega

theorem isEmpty_of_perm {α : Type} (l1 l2 : List α) (h : l1.Perm l2) :
    l1.isEmpty = l2.isEmpty := by
  cases l1 with
  | nil => rw [h.nil_eq]
  | cons a l =>
    cases l2 with
    | nil => exact absurd h.eq_nil (by simp)
    | cons _ _ => rfl

/-- When no field name repeats, every file declares the number of bytes its reader
yields, the two boundaries have the same length and the body is shorter than 2^63
bytes, the value returned by `Size()` is the number of bytes that `Send()` and `Close()`
write, in whatever order the two ranges visit the map. -/
theorem Size_eq_bytes_written (esc : String → String) (statBoundary boundary : String)
    (entries : List (String × FieldValue))
    (rangeSize rangeSend : List (String × FieldValue) → List (String × FieldValue))
    (hb : statBoundary.length = boundary.length)
    (hsize : ∀ m, (rangeSize m).Perm m) (hsend : ∀ m, (rangeSend m).Perm m)
    (hnames : (entries.map Prod.fst).Nodup)
    (hdecl : ∀ e ∈ entries, declaredSize e = (readerLength e : Int))
    (hfit : ((((writeEntries esc entries (NewMultipart statBoundary boundary)).Send esc
      rangeSend).Close.writer.out.length : Nat) : Int) < 2 ^ 63) :
    ((writeEntries esc entries (NewMultipart statBoundary boundary)).Size rangeSize).2
      = ((((writeEntries esc entries (NewMultipart statBoundary boundary)).Send esc
          rangeSend).Close.writer.out.length : Nat) : Int) := by
  have hfields := writeEntries_fresh_fields esc entries statBoundary boundary hnames
  have hwriter : (writeEntries esc entries (NewMultipart statBoundary boundary)).writer
      = NewWriter boundary := writeEntries_writer esc entries _
  obtain ⟨hsb, hslen⟩ := writeEntries_fresh_length esc entries statBoundary boundary
  generalize writeEntries esc entries (NewMultipart statBoundary boundary) = mw
    at hfields hwriter hsb hslen hfit ⊢
  obtain ⟨hrb, hrlen⟩ := sendLoop_fresh_length esc (rangeSend entries) boundary
  have hperm1 := ((hsend entries).map
    (fun e => boundary.length + 6 + partLength esc e)).sum_eq
  have hperm2 := ((hsize entries).map declaredSize).sum_eq
  have hempty := isEmpty_of_perm _ _ (hsend entries)
  have hnn : ∀ e ∈ rangeSize entries, 0 ≤ declaredSize e := fun e he => by
    rw [hdecl e ((hsize entries).subset he)]
    exact Int.natCast_nonneg _
  have hreal : (mw.Send esc rangeSend).Close.writer.out.length
      = (sendLoop esc (rangeSend entries) (NewWriter boundary)).out.length
        + (boundary.length + 8) := by
    have h := Close_length (sendLoop esc (rangeSend entries) (NewWriter boundary))
    rw [hrb] at h
    simp only [multipartWrapper.Close, multipartWrapper.Send, hwriter, hfields]
    exact h
  have hstat : (mw.Size rangeSize).2
      = sizeLoop (rangeSize entries)
          ((mw.statWriter.out.length + (statBoundary.length + 8) : Nat) : Int) := by
    have h := Close_length mw.statWriter
    rw [hsb] at h
    simp only [multipartWrapper.Size, hfields]
    rw [h]
  rw [hempty, hperm1, sum_partLength] at hrlen
  have hdsum := sum_declaredSize entries hdecl
  rw [hb] at hslen hstat
  rw [hreal] at hfit ⊢
  rw [hstat]
  generalize (entries.map readerLength).sum = content at hrlen hdsum
  generalize (entries.map (fun e => boundary.length + 6 + stubLength esc e)).sum = framing
    at hslen hrlen
  generalize (sendLoop esc (rangeSend entries) (NewWriter boundary)).out.length = sent
    at hrlen hfit ⊢
  generalize mw.statWriter.out.length = stat at hslen ⊢
  generalize (if entries.isEmpty then 0 else 2) = first at hslen hrlen
  have hfit2 : ((stat + (boundary.length + 8) : Nat) : Int)
      + ((rangeSize entries).map declaredSize).sum < 2 ^ 63 := by
    rw [hperm2, hdsum]
    have h : stat + (boundary.length + 8) + content = sent + (boundary.length + 8) := by omega
    have h2 : ((stat + (boundary.length + 8) : Nat) : Int) + (content : Int)
        = ((sent + (boundary.length + 8) : Nat) : Int) := by exact_mod_cast h
    rw [h2]
    exact hfit
  rw [sizeLoop_eq _ _ (Int.natCast_nonneg _) hnn hfit2, hperm2, hdsum]
  have h : stat + (boundary.length + 8) + content = sent + (boundary.length + 8) := by omega
  exact_mod_cast h

/-! ## The request built by Send -/

theorem receive_fired_head (xhr : XMLHttpRequest) (contentLength : Int) (resp : Response) :
    (xhr.receive contentLength resp).fired.head?
      = some (xhr.onUpload (xhr.Upload.callOnprogress contentLength contentLength)) := by
  unfold XMLHttpRequest.receive
  cases storeHeaders xhr.responseHeaders resp.Header with
  | none => cases xhr.aborted <;> rfl
  | some hs => cases resp.Body <;> cases xhr.aborted <;> rfl

/-- C11: when the body is absent or the method is `GET` or `HEAD`, the request handed to
the native call has no body stream and content length 0, its headers are the explicit
request headers alone (no Content-Type is derived from the body), the local content
length is 0, and after a successful native call the first event is the upload progress
event with `Loaded` and `Total` equal to 0. -/
theorem Send_without_body (host : Host) (xhr : XMLHttpRequest) (d : Body)
    (h : d = Body.absent ∨ xhr.method = "GET" ∨ xhr.method = "HEAD") :
    xhr.encode host d = { body := none, measured := 0, contentType := "", contentLength := 0 }
    ∧ (xhr.nativeRequest host d).Body = none
    ∧ (xhr.nativeRequest host d).ContentLength = 0
    ∧ (xhr.nativeRequest host d).Header
        = (host.rangeHeaders (xhr.requestHeaders.getD [])).foldl
            (fun hd kv => mapSet hd (host.canonicalKey kv.1) kv.2) []
    ∧ (∀ resp : Response, host.newRequestFails xhr.method xhr.url = false →
        host.Do (xhr.nativeRequest host d) = DoResult.ok resp →
        (xhr.Send host d).fired.head?
          = some { target := Target.upload, readyState := xhr.ReadyState,
                   event := { type := "progress", LengthComputable := true, Loaded := 0,
                              Total := 0 },
                   calls := (xhr.Upload.callOnprogress 0 0).calls }) := by
  have he : xhr.encode host d
      = { body := none, measured := 0, contentType := "", contentLength := 0 } := by
    unfold XMLHttpRequest.encode
    rw [if_pos h]
  refine ⟨he, ?_, ?_, ?_, ?_⟩
  · simp [XMLHttpRequest.nativeRequest, he]
  · simp [XMLHttpRequest.nativeRequest, he]
  · simp [XMLHttpRequest.nativeRequest, he]
  · intro resp hreq hdo
    rw [Send_of_response host xhr d resp hreq hdo, receive_fired_head, he]
    rfl

/-- An instance: a form-data body sent with `GET`. -/
theorem Send_without_body_witness :
    (openedRequest.nativeRequest (exampleHost (DoResult.ok exampleResponse))
        (Body.form [("name", FieldValue.text "test")])).Body = none
    ∧ (openedRequest.nativeRequest (exampleHost (DoResult.ok exampleResponse))
        (Body.form [("name", FieldValue.text "test")])).ContentLength = 0 :=
  ⟨(Send_without_body (exampleHost (DoResult.ok exampleResponse)) openedRequest
      (Body.form [("name", FieldValue.text "test")]) (Or.inr (Or.inl (by decide)))).2.1,
    (Send_without_body (exampleHost (DoResult.ok exampleResponse)) openedRequest
      (Body.form [("name", FieldValue.text "test")]) (Or.inr (Or.inl (by decide)))).2.2.1⟩

theorem receive_response (xhr : XMLHttpRequest) (contentLength : Int) (resp : Response)
    (buf : String) (m : List (String × String)) (hm : xhr.responseHeaders = some m)
    (hbody : resp.Body = some buf) :
    (xhr.receive contentLength resp).xhr.Response = buf
    ∧ (xhr.receive contentLength resp).xhr.ResponseText = buf
    ∧ (xhr.receive contentLength resp).panicked = false := by
  have hs : storeHeaders xhr.responseHeaders resp.Header
      = some (some (resp.Header.foldl (fun m kv => mapSet m kv.1 kv.2) m)) := by
    rw [hm]
    rfl
  unfold XMLHttpRequest.receive
  simp only [hs, hbody]
  cases ha : xhr.aborted <;> simp [XMLHttpRequest.doReadystatechange, ha]

/-- C12: for a text body and a method other than `GET` and `HEAD`, the body stream of the
native request yields the bytes of the text, the Content-Type derived from the body is
`text/plain;charset=UTF-8`, the local content length and the content length of the
request are the number of bytes of the text, and when the server answers with the body
it received, `Response` and `ResponseText` are the text. -/
theorem Send_text_body (host : Host) (xhr : XMLHttpRequest) (s : String)
    (hget : xhr.method ≠ "GET") (hhead : xhr.method ≠ "HEAD") :
    xhr.encode host (Body.text s)
        = { body := some s, measured := (s.length : Int),
            contentType := "text/plain;charset=UTF-8", contentLength := (s.length : Int) }
    ∧ (xhr.nativeRequest host (Body.text s)).Body = some s
    ∧ (xhr.nativeRequest host (Body.text s)).ContentLength = (s.length : Int)
    ∧ (∀ (resp : Response) (m : List (String × String)), xhr.responseHeaders = some m →
        host.newRequestFails xhr.method xhr.url = false →
        host.Do (xhr.nativeRequest host (Body.text s)) = DoResult.ok resp →
        resp.Body = (xhr.nativeRequest host (Body.text s)).Body →
        (xhr.Send host (Body.text s)).xhr.Response = s
        ∧ (xhr.Send host (Body.text s)).xhr.ResponseText = s) := by
  have he : xhr.encode host (Body.text s)
      = { body := some s, measured := (s.length : Int),
          contentType := "text/plain;charset=UTF-8", contentLength := (s.length : Int) } := by
    unfold XMLHttpRequest.encode
    rw [if_neg (by simp [hget, hhead])]
  have hb : (xhr.nativeRequest host (Body.text s)).Body = some s := by
    simp [XMLHttpRequest.nativeRequest, he]
  refine ⟨he, hb, ?_, ?_⟩
  · simp [XMLHttpRequest.nativeRequest, he]
  · intro resp m hm hreq hdo hecho
    rw [hb] at hecho
    rw [Send_of_response host xhr (Body.text s) resp hreq hdo]
    exact ⟨(receive_response xhr _ resp s m hm hecho).1,
      (receive_response xhr _ resp s m hm hecho).2.1⟩

/-- An instance: the text `test` sent with `POST`. -/
theorem Send_text_body_witness :
    ((XMLHttpRequest.new none).Open "POST" "http://host/text").1.method ≠ "GET"
    ∧ (((XMLHttpRequest.new none).Open "POST" "http://host/text").1.nativeRequest
        (exampleHost (DoResult.ok exampleResponse)) (Body.text "test")).Body = some "test"
    ∧ (((XMLHttpRequest.new none).Open "POST" "http://host/text").1.nativeRequest
        (exampleHost (DoResult.ok exampleResponse)) (Body.text "test")).ContentLength
        = (("test".length : Nat) : Int) :=
  ⟨by decide,
    (Send_text_body (exampleHost (DoResult.ok exampleResponse))
      ((XMLHttpRequest.new none).Open "POST" "http://host/text").1 "test" (by decide)
      (by decide)).2.1,
    (Send_text_body (exampleHost (DoResult.ok exampleResponse))
      ((XMLHttpRequest.new none).Open "POST" "http://host/text").1 "test" (by decide)
      (by decide)).2.2.1⟩

/-- C13: for a file body and a method other than `GET` and `HEAD`, the body stream of the
native request is the reader of the file, the Content-Type derived from the body is
`application/octet-stream`, and the local content length is the declared `Size`, whatever
the reader holds; when `Size` is positive it is also the content length of the request. -/
theorem Send_file_body (host : Host) (xhr : XMLHttpRequest) (f : File)
    (hget : xhr.method ≠ "GET") (hhead : xhr.method ≠ "HEAD") :
    (xhr.encode host (Body.file f)).body = some f.Reader.data
    ∧ (xhr.nativeRequest host (Body.file f)).Body = some f.Reader.data
    ∧ (xhr.encode host (Body.file f)).contentType = "application/octet-stream"
    ∧ (xhr.encode host (Body.file f)).contentLength = f.Size
    ∧ (f.Size > 0 → (xhr.nativeRequest host (Body.file f)).ContentLength = f.Size) := by
  have he : xhr.encode host (Body.file f)
      = { body := some f.Reader.data,
          measured := if f.Reader.sized then (f.Reader.data.length : Int) else 0,
          contentType := "application/octet-stream", contentLength := f.Size } := by
    unfold XMLHttpRequest.encode
    rw [if_neg (by simp [hget, hhead])]
  refine ⟨by rw [he], ?_, by rw [he], by rw [he], ?_⟩
  · simp [XMLHttpRequest.nativeRequest, he]
  · intro hpos
    simp [XMLHttpRequest.nativeRequest, he, hpos]

/-- An instance: a file that declares 7 bytes and whose reader yields 4. -/
theorem Send_file_body_witness :
    ((XMLHttpRequest.new none).Open "POST" "http://host/octetStream").1.method ≠ "GET"
    ∧ (((XMLHttpRequest.new none).Open "POST" "http://host/octetStream").1.encode
        (exampleHost (DoResult.ok exampleResponse))
        (Body.file { Reader := { data := "test", sized := true }, Name := "test.txt",
                     Size := 7 })).contentLength = 7 :=
  ⟨by decide,
    (Send_file_body (exampleHost (DoResult.ok exampleResponse))
      ((XMLHttpRequest.new none).Open "POST" "http://host/octetStream").1
      { Reader := { data := "test", sized := true }, Name := "test.txt", Size := 7 }
      (by decide) (by decide)).2.2.2.1⟩

/-! ## The events of a Send whose native call succeeds -/

theorem receive_panicked (xhr : XMLHttpRequest) (contentLength : Int) (resp : Response)
    (h : storeHeaders xhr.responseHeaders resp.Header = none) :
    (xhr.receive contentLength resp).panicked = true := by
  unfold XMLHttpRequest.receive
  simp only [h]

theorem stored_of_not_panicked (xhr : XMLHttpRequest) (contentLength : Int) (resp : Response)
    (h : (xhr.receive contentLength resp).panicked = false) :
    ∃ hs, storeHeaders xhr.responseHeaders resp.Header = some hs := by
  cases hs : storeHeaders xhr.responseHeaders resp.Header with
  | none =>
    rw [receive_panicked xhr contentLength resp hs] at h
    exact absurd h (by decide)
  | some v => exact ⟨v, rfl⟩

theorem receive_success_records (xhr : XMLHttpRequest) (contentLength : Int) (resp : Response)
    (buf : String) (ha : xhr.aborted = false) (hbody : resp.Body = some buf)
    (hrun : (xhr.receive contentLength resp).panicked = false) :
    records (xhr.receive contentLength resp).fired
      = [(Target.upload,
            { type := "progress", LengthComputable := true, Loaded := contentLength,
              Total := contentLength }, xhr.ReadyState),
         (Target.upload,
            { type := "load", LengthComputable := false, Loaded := 0, Total := 0 },
            xhr.ReadyState),
         (Target.main,
            { type := "readystatechange", LengthComputable := false, Loaded := 0, Total := 0 },
            2),
         (Target.main,
            { type := "readystatechange", LengthComputable := false, Loaded := 0, Total := 0 },
            3),
         (Target.main,
            { type := "readystatechange", LengthComputable := false, Loaded := 0, Total := 0 },
            4),
         (Target.main,
            { type := "progress", LengthComputable := true, Loaded := (buf.length : Int),
              Total := (buf.length : Int) }, 4),
         (Target.main,
            { type := "load", LengthComputable := false, Loaded := 0, Total := 0 }, 4)]
    ∧ (xhr.receive contentLength resp).xhr.ReadyState = 4 := by
  obtain ⟨hs, hhs⟩ := stored_of_not_panicked xhr contentLength resp hrun
  unfold XMLHttpRequest.receive
  simp only [hhs, hbody]
  simp [XMLHttpRequest.doReadystatechange, ha, records, XMLHttpRequest.onMain,
    XMLHttpRequest.onUpload, XMLHttpRequest.callOnreadystatechange, EventProp.callOnprogress,
    EventProp.callOnload, eventReadystatechange, eventProgress, eventLoad]

theorem receive_read_failure_records (xhr : XMLHttpRequest) (contentLength : Int)
    (resp : Response) (ha : xhr.aborted = false) (hbody : resp.Body = none)
    (hrun : (xhr.receive contentLength resp).panicked = false) :
    records (xhr.receive contentLength resp).fired
      = [(Target.upload,
            { type := "progress", LengthComputable := true, Loaded := contentLength,
              Total := contentLength }, xhr.ReadyState),
         (Target.upload,
            { type := "load", LengthComputable := false, Loaded := 0, Total := 0 },
            xhr.ReadyState),
         (Target.main,
            { type := "readystatechange", LengthComputable := false, Loaded := 0, Total := 0 },
            2),
         (Target.main,
            { type := "error", LengthComputable := false, Loaded := 0, Total := 0 }, 2)]
    ∧ (xhr.receive contentLength resp).xhr.ReadyState = 2
    ∧ (xhr.receive contentLength resp).xhr.Response = xhr.Response
    ∧ (xhr.receive contentLength resp).xhr.ResponseText = xhr.ResponseText := by
  obtain ⟨hs, hhs⟩ := stored_of_not_panicked xhr contentLength resp hrun
  unfold XMLHttpRequest.receive
  simp only [hhs, hbody]
  simp [XMLHttpRequest.doReadystatechange, ha, records, XMLHttpRequest.onMain,
    XMLHttpRequest.onUpload, XMLHttpRequest.callOnreadystatechange, EventProp.callOnprogress,
    EventProp.callOnload, EventProp.callOnerror, eventReadystatechange, eventProgress,
    eventLoad, eventError]

/-- C15: a `Send` on a request that is not aborted, whose native call and body read
succeed and which runs to its end, fires exactly: upload progress (length-computable,
`Loaded` and `Total` the content length computed from the body), upload load,
readystatechange in ready states 2, 3 and 4, progress on the request object
(length-computable, `Loaded` and `Total` the number of bytes of the response body) and
load on the request object. -/
theorem Send_success_events (host : Host) (xhr : XMLHttpRequest) (data : Body)
    (resp : Response) (buf : String)
    (ha : xhr.aborted = false)
    (hreq : host.newRequestFails xhr.method xhr.url = false)
    (hdo : host.Do (xhr.nativeRequest host data) = DoResult.ok resp)
    (hbody : resp.Body = some buf)
    (hrun : (xhr.Send host data).panicked = false) :
    records (xhr.Send host data).fired
      = [(Target.upload,
            { type := "progress", LengthComputable := true,
              Loaded := (xhr.encode host data).contentLength,
              Total := (xhr.encode host data).contentLength }, xhr.ReadyState),
         (Target.upload,
            { type := "load", LengthComputable := false, Loaded := 0, Total := 0 },
            xhr.ReadyState),
         (Target.main,
            { type := "readystatechange", LengthComputable := false, Loaded := 0, Total := 0 },
            2),
         (Target.main,
            { type := "readystatechange", LengthComputable := false, Loaded := 0, Total := 0 },
            3),
         (Target.main,
            { type := "readystatechange", LengthComputable := false, Loaded := 0, Total := 0 },
            4),
         (Target.main,
            { type := "progress", LengthComputable := true, Loaded := (buf.length : Int),
              Total := (buf.length : Int) }, 4),
         (Target.main,
            { type := "load", LengthComputable := false, Loaded := 0, Total := 0 }, 4)] := by
  rw [Send_of_response host xhr data resp hreq hdo] at hrun ⊢
  exact (receive_success_records xhr _ resp buf ha hbody hrun).1

/-- An instance: the text `test` sent with `POST`, answered with status 200 and the body
`ok`. -/
theorem Send_success_events_witness :
    ((XMLHttpRequest.new none).Open "POST" "http://host/text").1.aborted = false
    ∧ labels (((XMLHttpRequest.new none).Open "POST" "http://host/text").1.Send
        (exampleHost (DoResult.ok exampleResponse)) (Body.text "test")).fired
      = [(Target.upload, "progress"), (Target.upload, "load"),
         (Target.main, "readystatechange"), (Target.main, "readystatechange"),
         (Target.main, "readystatechange"), (Target.main, "progress"),
         (Target.main, "load")] :=
  ⟨rfl, by
    have h := Send_success_events (exampleHost (DoResult.ok exampleResponse))
      ((XMLHttpRequest.new none).Open "POST" "http://host/text").1 (Body.text "test")
      exampleResponse "ok" rfl rfl rfl rfl (by decide)
    have h2 := congrArg (List.map (fun r : Target × ProgressEvent × Int => (r.1, r.2.1.type))) h
    simpa [records, labels, List.map_map, Function.comp_def] using h2⟩

/-- C16: when `http.NewRequest` fails, `Send` fires one error event on the request object
and nothing else (nothing on the upload object), changes no field of the request, and
its result does not depend on the native call, which is not issued. -/
theorem Send_construction_failure (host : Host) (xhr : XMLHttpRequest) (data : Body)
    (h : host.newRequestFails xhr.method xhr.url = true) :
    (xhr.Send host data).fired = [xhr.onMain xhr.EventProp.callOnerror]
    ∧ labels (xhr.Send host data).fired = [(Target.main, "error")]
    ∧ (xhr.Send host data).xhr = xhr
    ∧ (xhr.Send host data).panicked = false
    ∧ (∀ call : Request → DoResult,
        xhr.Send { host with Do := call } data = xhr.Send host data) := by
  have hs : ∀ h2 : Host, h2.newRequestFails xhr.method xhr.url = true →
      xhr.Send h2 data
        = { xhr := xhr, fired := [xhr.onMain xhr.EventProp.callOnerror], panicked := false } := by
    intro h2 hf
    simp [XMLHttpRequest.Send, hf]
  refine ⟨by rw [hs host h], by rw [hs host h]; rfl, by rw [hs host h], by rw [hs host h], ?_⟩
  intro d2
  rw [hs host h, hs { host with Do := d2 } h]

/-- An instance: a host for which the construction of the request fails. -/
theorem Send_construction_failure_witness :
    failingConstructionHost.newRequestFails openedRequest.method openedRequest.url = true
    ∧ labels (openedRequest.Send failingConstructionHost Body.absent).fired
        = [(Target.main, "error")] :=
  ⟨rfl, (Send_construction_failure failingConstructionHost openedRequest Body.absent rfl).2.1⟩

/-- C17: a `Send` on a request that is not aborted, whose native call succeeds, whose
body read fails and which runs to its end, fires upload progress, upload load, a
readystatechange in ready state 2 and then one error event on the request object, and
nothing else; the ready state stays 2 and `Response` and `ResponseText` are unchanged. -/
theorem Send_read_failure (host : Host) (xhr : XMLHttpRequest) (data : Body)
    (resp : Response)
    (ha : xhr.aborted = false)
    (hreq : host.newRequestFails xhr.method xhr.url = false)
    (hdo : host.Do (xhr.nativeRequest host data) = DoResult.ok resp)
    (hbody : resp.Body = none)
    (hrun : (xhr.Send host data).panicked = false) :
    records (xhr.Send host data).fired
      = [(Target.upload,
            { type := "progress", LengthComputable := true,
              Loaded := (xhr.encode host data).contentLength,
              Total := (xhr.encode host data).contentLength }, xhr.ReadyState),
         (Target.upload,
            { type := "load", LengthComputable := false, Loaded := 0, Total := 0 },
            xhr.ReadyState),
         (Target.main,
            { type := "readystatechange", LengthComputable := false, Loaded := 0, Total := 0 },
            2),
         (Target.main,
            { type := "error", LengthComputable := false, Loaded := 0, Total := 0 }, 2)]
    ∧ (xhr.Send host data).xhr.ReadyState = 2
    ∧ (xhr.Send host data).xhr.Response = xhr.Response
    ∧ (xhr.Send host data).xhr.ResponseText = xhr.ResponseText := by
  rw [Send_of_response host xhr data resp hreq hdo] at hrun ⊢
  exact receive_read_failure_records xhr _ resp ha hbody hrun

/-- An instance: an opened request whose response body cannot be read. -/
theorem Send_read_failure_witness :
    openedRequest.aborted = false
    ∧ (openedRequest.Send (exampleHost (DoResult.ok unreadableResponse)) Body.absent).xhr.ReadyState
        = 2 :=
  ⟨by decide,
    (Send_read_failure (exampleHost (DoResult.ok unreadableResponse)) openedRequest Body.absent
      unreadableResponse (by decide) rfl rfl rfl (by decide)).2.1⟩

/-! ## Open -/

/-- C20 (counterexample): a request that was opened and aborted is reachable and in ready
state 0; `Open` on it leaves the ready state at 0 and fires no event. -/
theorem Open_on_aborted_request_fires_nothing :
    Reachable abortedRequest
    ∧ abortedRequest.ReadyState = 0
    ∧ (abortedRequest.Open "GET" "http://host/get").1.ReadyState = 0
    ∧ (abortedRequest.Open "GET" "http://host/get").2 = [] :=
  ⟨reachable_run _ _ (reachable_new none), by decide, by decide, by decide⟩

/-- C20 (amended): on a request that is not aborted, `Open` sets the ready state to 1,
fires one readystatechange event on the request object, seen in ready state 1, and
nothing else, stores the method and the url, and leaves both header maps empty. -/
theorem Open_of_not_aborted (xhr : XMLHttpRequest) (method url : String)
    (ha : xhr.aborted = false) :
    (xhr.Open method url).1.ReadyState = 1
    ∧ records (xhr.Open method url).2
        = [(Target.main,
            { type := "readystatechange", LengthComputable := false, Loaded := 0, Total := 0 },
            1)]
    ∧ (xhr.Open method url).1.method = method
    ∧ (xhr.Open method url).1.url = url
    ∧ (xhr.Open method url).1.requestHeaders = some []
    ∧ (xhr.Open method url).1.responseHeaders = some [] := by
  simp [XMLHttpRequest.Open, XMLHttpRequest.doReadystatechange, ha, records,
    XMLHttpRequest.onMain, XMLHttpRequest.callOnreadystatechange, eventReadystatechange]

/-- An instance: `Open` on a new request. -/
theorem Open_of_not_aborted_witness :
    (XMLHttpRequest.new none).aborted = false
    ∧ ((XMLHttpRequest.new none).Open "GET" "http://host/get").1.ReadyState = 1
    ∧ ((XMLHttpRequest.new none).Open "GET" "http://host/get").1.requestHeaders = some [] :=
  ⟨rfl, (Open_of_not_aborted (XMLHttpRequest.new none) "GET" "http://host/get" rfl).1,
    (Open_of_not_aborted (XMLHttpRequest.new none) "GET" "http://host/get" rfl).2.2.2.2.1⟩

/-! ## Explicit request headers -/

/-- C14 (counterexample): the script sets `Content-Type` to `a` and then `content-type` to
`b`, and sends a text body.  Both names have the canonical form `Content-Type`, so the
request has one header of that name: its value is `b` when the range over the header map
visits `Content-Type` first, and `a` when it visits `content-type` first.  In the first
case the header is not the value set for `Content-Type`, in the second it is not the last
value set for `content-type`. -/
theorem explicit_header_case_collision :
    twoCaseRequest.requestHeaders = some [("Content-Type", "a"), ("content-type", "b")]
    ∧ (twoCaseRequest.nativeRequest (canonicalHost (fun m => m)) (Body.text "x")).Header
        = [("Content-Type", "b")]
    ∧ (twoCaseRequest.nativeRequest (canonicalHost List.reverse) (Body.text "x")).Header
        = [("Content-Type", "a")] := by
  decide

/-- A lookup in the map built by a sequence of assignments under the keys `c k`: the value
of the last assignment whose key is the one looked up, else the value of the map the
sequence started from. -/
theorem mapGet_foldl_mapSet (c : String → String) (l h0 : List (String × String))
    (key : String) :
    mapGet (l.foldl (fun h kv => mapSet h (c kv.1) kv.2) h0) key
      = ((l.reverse.find? (fun kv => c kv.1 == key)).map Prod.snd).or (mapGet h0 key) := by
  induction l using List.reverseRecOn with
  | nil => simp
  | append_singleton l kv ih =>
    rw [List.foldl_append, List.foldl_cons, List.foldl_nil, List.reverse_append,
      List.reverse_singleton, List.singleton_append, List.find?_cons]
    by_cases h : c kv.1 = key
    · have hb : (c kv.1 == key) = true := by simp [h]
      rw [hb, h, mapGet_mapSet_self]
      rfl
    · have hb : (c kv.1 == key) = false := by simp [h]
      rw [hb, mapGet_mapSet_other _ _ _ _ (fun h2 => h h2.symm), ih]

theorem find_of_nodup_keys (c : String → String) (l : List (String × String)) (k v : String)
    (hmem : (k, v) ∈ l) (hnd : (l.map (fun kv => c kv.1)).Nodup) :
    l.find? (fun kv => c kv.1 == c k) = some (k, v) := by
  induction l with
  | nil => exact absurd hmem (List.not_mem_nil _)
  | cons e rest ih =>
    rw [List.map_cons, List.nodup_cons] at hnd
    rcases List.mem_cons.mp hmem with h | h
    · subst h
      simp [List.find?_cons]
    · have hne : ¬ c e.1 = c k := fun h2 =>
        hnd.1 (h2 ▸ List.mem_map_of_mem (fun kv => c kv.1) h)
      have hb : (c e.1 == c k) = false := by simp [hne]
      rw [List.find?_cons, hb]
      exact ih h hnd.2

theorem mem_of_mapGet {α : Type} (m : List (String × α)) (k : String) (v : α)
    (h : mapGet m k = some v) : (k, v) ∈ m := by
  unfold mapGet at h
  cases hf : m.find? (fun e => e.1 == k) with
  | none => simp [hf] at h
  | some e =>
    rw [hf] at h
    have h1 := List.find?_some hf
    have h2 := List.mem_of_find?_eq_some hf
    simp only [Option.map_some', Option.some.injEq] at h
    simp only [beq_iff_eq] at h1
    obtain ⟨e1, e2⟩ := e
    simp only at h h1
    rw [← h1, ← h]
    exact h2

theorem setRequestHeaders_eq (calls : List (String × String)) (xhr : XMLHttpRequest)
    (m0 : List (String × String)) (hm : xhr.requestHeaders = some m0) :
    xhr.setRequestHeaders calls
      = { xhr with requestHeaders := some (calls.foldl (fun m kv => mapSet m kv.1 kv.2) m0) } := by
  induction calls generalizing xhr m0 with
  | nil => cases xhr; cases hm; rfl
  | cons kv rest ih =>
    obtain ⟨key, value⟩ := kv
    have h1 : (xhr.SetRequestHeader key value).xhr
        = { xhr with requestHeaders := some (mapSet m0 key value) } := by
      simp [XMLHttpRequest.SetRequestHeader, hm]
    unfold XMLHttpRequest.setRequestHeaders
    rw [ih (xhr.SetRequestHeader key value).xhr (mapSet m0 key value) (by rw [h1]), h1]
    rfl

theorem nativeRequest_header_of_mem (host : Host) (xhr : XMLHttpRequest) (data : Body)
    (m : List (String × String)) (k v : String)
    (hm : xhr.requestHeaders = some m)
    (hperm : (host.rangeHeaders m).Perm m)
    (hcanon : (m.map (fun kv => host.canonicalKey kv.1)).Nodup)
    (hmem : (k, v) ∈ m) :
    mapGet (xhr.nativeRequest host data).Header (host.canonicalKey k) = some v := by
  have hmem2 : (k, v) ∈ (host.rangeHeaders m).reverse :=
    List.mem_reverse.mpr (hperm.mem_iff.mpr hmem)
  have hnd2 : ((host.rangeHeaders m).reverse.map (fun kv => host.canonicalKey kv.1)).Nodup := by
    rw [List.map_reverse, List.nodup_reverse]
    exact (hperm.map _).nodup_iff.mpr hcanon
  have hfind := find_of_nodup_keys host.canonicalKey _ k v hmem2 hnd2
  unfold XMLHttpRequest.nativeRequest
  simp only [hm, Option.getD_some]
  rw [mapGet_foldl_mapSet, hfind]
  rfl

/-- C14 (amended): after any sequence of `SetRequestHeader` calls on an opened request, if
no two names in the request-header map have the same canonical form, then for every
body and every name `k` that was set, the native request carries under the canonical
form of `k` the last value set for `k`; for `Content-Type` this value replaces the one
derived from the body. -/
theorem explicit_headers_override (host : Host) (xhr : XMLHttpRequest) (data : Body)
    (m0 calls : List (String × String)) (k v : String)
    (hm : xhr.requestHeaders = some m0)
    (hperm : ∀ m, (host.rangeHeaders m).Perm m)
    (hcanon : (((xhr.setRequestHeaders calls).requestHeaders.getD []).map
      (fun kv => host.canonicalKey kv.1)).Nodup)
    (hlast : mapGet calls.reverse k = some v) :
    mapGet ((xhr.setRequestHeaders calls).nativeRequest host data).Header (host.canonicalKey k)
      = some v := by
  have heq := setRequestHeaders_eq calls xhr m0 hm
  have hm2 : (xhr.setRequestHeaders calls).requestHeaders
      = some (calls.foldl (fun m kv => mapSet m kv.1 kv.2) m0) := by rw [heq]
  rw [hm2, Option.getD_some] at hcanon
  have hget : mapGet (calls.foldl (fun m kv => mapSet m kv.1 kv.2) m0) k = some v := by
    have h := mapGet_foldl_mapSet (fun key => key) calls m0 k
    have h2 : (calls.reverse.find? (fun kv => (fun key => key) kv.1 == k)).map Prod.snd
        = some v := hlast
    rw [h2] at h
    exact h
  exact nativeRequest_header_of_mem host _ data _ k v hm2 (hperm _) hcanon
    (mem_of_mapGet _ k v hget)

/-- An instance: `Content-Type` set to `a`, `Accept` to `b` and `Content-Type` again to
`c` before a text body is sent; the request carries `Content-Type: c`. -/
theorem explicit_headers_override_witness :
    mapGet [("Content-Type", "a"), ("Accept", "b"), ("Content-Type", "c")].reverse "Content-Type"
        = some "c"
    ∧ mapGet ((((XMLHttpRequest.new none).Open "POST" "http://host/text").1.setRequestHeaders
          [("Content-Type", "a"), ("Accept", "b"), ("Content-Type", "c")]).nativeRequest
          (canonicalHost (fun m => m)) (Body.text "x")).Header
        ((canonicalHost (fun m => m)).canonicalKey "Content-Type") = some "c" :=
  ⟨by decide,
    explicit_headers_override (canonicalHost (fun m => m))
      ((XMLHttpRequest.new none).Open "POST" "http://host/text").1 (Body.text "x") []
      [("Content-Type", "a"), ("Accept", "b"), ("Content-Type", "c")] "Content-Type" "c"
      rfl (fun m => List.Perm.refl m) (by decide) (by decide)⟩

/-! ## The order of the parts of a multipart body -/

theorem sendLoop_eq_renderParts (esc : String → String) (visit : List (String × FieldValue))
    (w : Writer) :
    (sendLoop esc visit w).out = w.out ++ renderParts w.boundary esc true (!w.lastpart) visit := by
  induction visit generalizing w with
  | nil => simp [sendLoop, renderParts]
  | cons e rest ih =>
    obtain ⟨k, v⟩ := e
    cases v with
    | text value =>
      unfold sendLoop renderParts
      rw [ih]
      cases hl : w.lastpart <;>
        simp [Writer.WriteField, Writer.CreateFormField, Writer.CreatePart, Writer.Write, hl,
          partText, String.append_assoc]
    | file f =>
      unfold sendLoop renderParts
      rw [ih]
      cases hl : w.lastpart <;>
        simp [Writer.CreateFormFile, Writer.CreatePart, Writer.Write, hl, partText,
          String.append_assoc]

theorem writeEntries_eq_renderParts (esc : String → String)
    (entries : List (String × FieldValue)) (mw : multipartWrapper) :
    (writeEntries esc entries mw).statWriter.out
      = mw.statWriter.out
        ++ renderParts mw.statWriter.boundary esc false (!mw.statWriter.lastpart) entries := by
  induction entries generalizing mw with
  | nil => simp [writeEntries, renderParts]
  | cons e rest ih =>
    obtain ⟨k, v⟩ := e
    cases v with
    | text value =>
      unfold writeEntries renderParts
      rw [ih]
      cases hl : mw.statWriter.lastpart <;>
        simp [multipartWrapper.WriteField, Writer.WriteField, Writer.CreateFormField,
          Writer.CreatePart, Writer.Write, hl, partText, String.append_assoc]
    | file f =>
      unfold writeEntries renderParts
      rw [ih]
      cases hl : mw.statWriter.lastpart <;>
        simp [multipartWrapper.WriteFile, Writer.CreateFormFile, Writer.CreatePart, hl,
          partText, String.append_assoc]

theorem Send_writer_of_distinct (esc : String → String) (statBoundary boundary : String)
    (entries : List (String × FieldValue))
    (range : List (String × FieldValue) → List (String × FieldValue))
    (hnames : (entries.map Prod.fst).Nodup) :
    ((writeEntries esc entries (NewMultipart statBoundary boundary)).Send esc range).writer
      = sendLoop esc (range entries) (NewWriter boundary) := by
  have hfields := writeEntries_fresh_fields esc entries statBoundary boundary hnames
  have hwriter : (writeEntries esc entries (NewMultipart statBoundary boundary)).writer
      = NewWriter boundary := writeEntries_writer esc entries _
  simp only [multipartWrapper.Send, hfields, hwriter]

set_option maxRecDepth 100000 in
/-- C18 (counterexample): for the form with the entries `a = x` and `b = y`, the dry run
writes the part `a` and then the part `b`; a real pass in which the range over the map
visits `b` first writes the part `b` and then the part `a`, and its output differs from
that of a real pass over the same wrapper in which the range visits `a` first. -/
theorem real_pass_order_differs :
    twoFieldWrapper.statWriter.out
      = "--" ++ zeros ++ "\r\nContent-Disposition: form-data; name=\"a\"\r\n\r\nx"
        ++ "\r\n--" ++ zeros ++ "\r\nContent-Disposition: form-data; name=\"b\"\r\n\r\ny"
    ∧ (twoFieldWrapper.Send (fun s => s) List.reverse).writer.out
      = "--" ++ ones ++ "\r\nContent-Disposition: form-data; name=\"b\"\r\n\r\ny"
        ++ "\r\n--" ++ ones ++ "\r\nContent-Disposition: form-data; name=\"a\"\r\n\r\nx"
    ∧ (twoFieldWrapper.Send (fun s => s) (fun m => m)).writer.out
      ≠ (twoFieldWrapper.Send (fun s => s) List.reverse).writer.out := by
  decide

/-- C18 (amended): when no field name repeats, the dry run writes the parts in the order of
the `WriteField` and `WriteFile` calls, and a real pass writes the same parts with their
contents, each once, in the order in which the range over the map visits them, which is
a permutation of the order of the calls; the number of bytes a real pass writes is the
same for every such order. -/
theorem passes_write_same_parts (esc : String → String) (statBoundary boundary : String)
    (entries : List (String × FieldValue))
    (rangeSend rangeOther : List (String × FieldValue) → List (String × FieldValue))
    (hsend : ∀ m, (rangeSend m).Perm m) (hother : ∀ m, (rangeOther m).Perm m)
    (hnames : (entries.map Prod.fst).Nodup) :
    (writeEntries esc entries (NewMultipart statBoundary boundary)).statWriter.out
        = renderParts statBoundary esc false true entries
    ∧ ((writeEntries esc entries (NewMultipart statBoundary boundary)).Send esc
          rangeSend).writer.out
        = renderParts boundary esc true true (rangeSend entries)
    ∧ (rangeSend entries).Perm entries
    ∧ ((writeEntries esc entries (NewMultipart statBoundary boundary)).Send esc
          rangeOther).writer.out.length
        = ((writeEntries esc entries (NewMultipart statBoundary boundary)).Send esc
          rangeSend).writer.out.length := by
  refine ⟨?_, ?_, hsend entries, ?_⟩
  · rw [writeEntries_eq_renderParts]
    simp [NewMultipart, NewWriter]
  · rw [Send_writer_of_distinct esc statBoundary boundary entries rangeSend hnames,
      sendLoop_eq_renderParts]
    simp [NewWriter]
  · rw [Send_writer_of_distinct esc statBoundary boundary entries rangeSend hnames,
      Send_writer_of_distinct esc statBoundary boundary entries rangeOther hnames]
    have h1 := (sendLoop_fresh_length esc (rangeSend entries) boundary).2
    have h2 := (sendLoop_fresh_length esc (rangeOther entries) boundary).2
    rw [isEmpty_of_perm _ _ (hsend entries),
      ((hsend entries).map (fun e => boundary.length + 6 + partLength esc e)).sum_eq] at h1
    rw [isEmpty_of_perm _ _ (hother entries),
      ((hother entries).map (fun e => boundary.length + 6 + partLength esc e)).sum_eq] at h2
    omega

/-- An instance: the form with the text `name = test` and a file `f`, the range visiting
the map in reverse order. -/
theorem passes_write_same_parts_witness :
    ([("name", FieldValue.text "test"),
      ("f", FieldValue.file { Reader := { data := "test", sized := true },
                              Name := "test.txt", Size := 4 })].map Prod.fst).Nodup
    ∧ ((writeEntries (fun s => s)
          [("name", FieldValue.text "test"),
           ("f", FieldValue.file { Reader := { data := "test", sized := true },
                                   Name := "test.txt", Size := 4 })]
          (NewMultipart zeros ones)).Send (fun s => s) List.reverse).writer.out
        = renderParts ones (fun s => s) true true
            [("f", FieldValue.file { Reader := { data := "test", sized := true },
                                     Name := "test.txt", Size := 4 }),
             ("name", FieldValue.text "test")] :=
  ⟨by decide,
    (passes_write_same_parts (fun s => s) zeros ones
      [("name", FieldValue.text "test"),
       ("f", FieldValue.file { Reader := { data := "test", sized := true },
                               Name := "test.txt", Size := 4 })]
      List.reverse (fun m => m) (fun m => List.reverse_perm m) (fun m => List.Perm.refl m)
      (by decide)).2.1⟩

set_option maxRecDepth 100000 in
/-- C19 (evaluation at the failing input): for the form with the entries `a = x` and
`a = y`, the real pass followed by `Close` writes a single part, with the name `a` and
the content `y`, and the closing delimiter; the entry `a = x` is not in the stream. -/
theorem Send_drops_replaced_entry :
    (duplicateNameWrapper.Send (fun s => s) (fun m => m)).Close.writer.out
      = "--" ++ ones ++ "\r\nContent-Disposition: form-data; name=\"a\"\r\n\r\ny"
        ++ "\r\n--" ++ ones ++ "--\r\n" := by
  decide

/-! ## The frame of a failed Send -/

/-- C21: a `Send` for which `http.NewRequest` fails, or whose native call fails with any
error (timeout-class or not, with or without a configured timeout), returns the request
object as it was: the ready state, status, status text, response, response text, both
header maps, method, url and the aborted flag are unchanged, and so is every other
field; the call does not panic. -/
theorem failed_Send_changes_nothing (host : Host) (xhr : XMLHttpRequest) (data : Body)
    (h : host.newRequestFails xhr.method xhr.url = true
      ∨ ∃ timeout, host.Do (xhr.nativeRequest host data) = DoResult.failed timeout) :
    (xhr.Send host data).xhr = xhr
    ∧ ((xhr.Send host data).xhr.ReadyState = xhr.ReadyState
      ∧ (xhr.Send host data).xhr.Status = xhr.Status
      ∧ (xhr.Send host data).xhr.StatusText = xhr.StatusText
      ∧ (xhr.Send host data).xhr.Response = xhr.Response
      ∧ (xhr.Send host data).xhr.ResponseText = xhr.ResponseText
      ∧ (xhr.Send host data).xhr.responseHeaders = xhr.responseHeaders
      ∧ (xhr.Send host data).xhr.requestHeaders = xhr.requestHeaders
      ∧ (xhr.Send host data).xhr.method = xhr.method
      ∧ (xhr.Send host data).xhr.url = xhr.url
      ∧ (xhr.Send host data).xhr.aborted = xhr.aborted)
    ∧ (xhr.Send host data).panicked = false := by
  have hx : (xhr.Send host data).xhr = xhr ∧ (xhr.Send host data).panicked = false := by
    unfold XMLHttpRequest.Send
    cases hreq : host.newRequestFails xhr.method xhr.url with
    | true => simp
    | false =>
      rcases h with h | ⟨timeout, h⟩
      · rw [hreq] at h
        exact absurd h (by decide)
      · rw [h]
        cases timeout
        · simp
        · by_cases ht : xhr.Timeout > 0 <;> simp [ht]
  refine ⟨hx.1, ?_, hx.2⟩
  rw [hx.1]
  exact ⟨rfl, rfl, rfl, rfl, rfl, rfl, rfl, rfl, rfl, rfl⟩

/-- An instance: a request that received a response and is then sent again to a host
whose native call fails with a timeout-class error; the status of the first response
stays. -/
theorem failed_Send_changes_nothing_witness :
    (∃ timeout, (exampleHost (DoResult.failed true)).Do
        ((openedRequest.Send (exampleHost (DoResult.ok exampleResponse)) Body.absent).xhr.nativeRequest
          (exampleHost (DoResult.failed true)) (Body.text "test")) = DoResult.failed timeout)
    ∧ ((openedRequest.Send (exampleHost (DoResult.ok exampleResponse)) Body.absent).xhr.Send
        (exampleHost (DoResult.failed true)) (Body.text "test")).xhr
      = (openedRequest.Send (exampleHost (DoResult.ok exampleResponse)) Body.absent).xhr :=
  ⟨⟨true, rfl⟩,
    (failed_Send_changes_nothing (exampleHost (DoResult.failed true))
      (openedRequest.Send (exampleHost (DoResult.ok exampleResponse)) Body.absent).xhr
      (Body.text "test") (Or.inr ⟨true, rfl⟩)).1⟩

end Xhr
